import Mathlib

/-!
Verification development for the rocket-taro-server authentication core.

This file gives a shallow embedding, in Lean 4, of the session/identity
subsystem of the `rocket-taro-server` Rust application: the crypto helpers
(`src/utils/wx_crypto.rs`), the Redis cache wrapper and its session/user
caches (`src/cache/redis.rs`, `src/cache/session.rs`, `src/cache/user.rs`),
the database queries (`src/database/auth.rs`, `src/database/wx_auth.rs`),
the request guards (`src/auth/guards.rs`), the login route
(`src/routes/auth.rs`) and the WeChat login use case
(`src/use_cases/wx_auth_use_case.rs`).

Modelling conventions:
  * `Uuid` is modelled as `Nat`; `DateTime<Utc>` timestamps as `Int`
    (seconds); Rust byte slices as `List Nat` with entries below 256.
  * Fallible I/O (`Result<_, E>`) is modelled with `Except`;
    the possibility of backend failure is modelled with explicit
    per-key failure oracles carried in the state.
  * Asynchronous functions are modelled as pure state-passing functions:
    each takes the relevant state and the current time and returns the
    result together with the updated state.
-/

namespace RocketTaro


/-- Decidable equality for `Except`, needed to evaluate concrete pipeline
results in witnesses. -/
instance exceptDecEq {ε α : Type} [DecidableEq ε] [DecidableEq α] :
    DecidableEq (Except ε α) := fun x y =>
  match x, y with
  | .ok a, .ok b =>
    if h : a = b then .isTrue (by rw [h])
    else .isFalse (fun hh => h (Except.ok.inj hh))
  | .error a, .error b =>
    if h : a = b then .isTrue (by rw [h])
    else .isFalse (fun hh => h (Except.error.inj hh))
  | .ok _, .error _ => .isFalse (fun hh => Except.noConfusion hh)
  | .error _, .ok _ => .isFalse (fun hh => Except.noConfusion hh)

/-! ## Byte-level utilities -/

/-- Truncate to an unsigned 32-bit value. -/
def u32 (n : Nat) : Nat := n % 4294967296

/-- Truncate to an unsigned 8-bit value. -/
def u8 (n : Nat) : Nat := n % 256

/-- Rotate a 32-bit word left by `k` bits. -/
def rotl (k n : Nat) : Nat := u32 (Nat.lor (n <<< k) (n >>> (32 - k)))

/-- Big-endian byte decomposition of `n` into `k` bytes. -/
def beBytes : Nat → Nat → List Nat
  | 0, _ => []
  | k + 1, n => beBytes k (n / 256) ++ [n % 256]

/-- Combine a list of bytes into a big-endian natural number. -/
def beWord (bs : List Nat) : Nat := bs.foldl (fun acc b => acc * 256 + b) 0

/-- Bytewise xor of two byte lists. -/
def xorBytes (a b : List Nat) : List Nat := a.zipWith Nat.xor b

/-- Split a list into chunks of size `sz` (fuel-driven, total). -/
def chunksAux (sz : Nat) : Nat → List Nat → List (List Nat)
  | 0, _ => []
  | _, [] => []
  | fuel + 1, l => l.take sz :: chunksAux sz fuel (l.drop sz)

/-- Split a byte list into chunks of size `sz`. -/
def chunks (sz : Nat) (l : List Nat) : List (List Nat) := chunksAux sz l.length l

/-- UTF-8 encoding of a single character (RFC 3629). -/
def utf8EncodeCharM (c : Char) : List Nat :=
  let n := c.toNat
  if n < 128 then [n]
  else if n < 2048 then [192 + n / 64, 128 + n % 64]
  else if n < 65536 then [224 + n / 4096, 128 + (n / 64) % 64, 128 + n % 64]
  else [240 + n / 262144, 128 + (n / 4096) % 64, 128 + (n / 64) % 64, 128 + n % 64]

/-- The UTF-8 bytes of a string, mirroring Rust `str::as_bytes`. -/
def strBytes (s : String) : List Nat := s.data.flatMap utf8EncodeCharM

/-- Lowercase hexadecimal digit, as produced by the Rust `hex` crate:
values below ten map to the ASCII digits, ten through fifteen to the
lowercase letters starting at `a`. -/
def hexDigit (n : Nat) : Char :=
  if n < 10 then Char.ofNat (n + 48)
  else if n < 16 then Char.ofNat (n + 87)
  else '0'

/-- Lowercase hexadecimal encoding of a byte list (`hex::encode`). -/
def hexEncode (bs : List Nat) : List Char :=
  bs.flatMap (fun b => [hexDigit (b / 16), hexDigit (b % 16)])

/-- ASCII lowercasing of a character list, modelling Rust `str::to_lowercase`
on the ASCII subset that signatures use. -/
def lowerCL (cs : List Char) : List Char := cs.map Char.toLower

/-! ## SHA-1 (the `sha1` crate used by `WxCrypto::verify_signature`) -/

/-- SHA-1 message padding: append `0x80`, zero bytes, and the 64-bit
big-endian bit length so the total length is a multiple of 64. -/
def sha1Pad (msg : List Nat) : List Nat :=
  let len := msg.length
  let z := (119 - len % 64) % 64
  msg ++ [128] ++ List.replicate z 0 ++ beBytes 8 (8 * len)

/-- SHA-1 round constant. -/
def sha1K (t : Nat) : Nat :=
  if t < 20 then 1518500249
  else if t < 40 then 1859775393
  else if t < 60 then 2400959708
  else 3395469782

/-- SHA-1 round function. -/
def sha1F (t b c d : Nat) : Nat :=
  if t < 20 then Nat.lor (Nat.land b c) (Nat.land (Nat.xor b 4294967295) d)
  else if t < 40 then Nat.xor (Nat.xor b c) d
  else if t < 60 then Nat.lor (Nat.lor (Nat.land b c) (Nat.land b d)) (Nat.land c d)
  else Nat.xor (Nat.xor b c) d

/-- Expand the 16 message words of a block to the 80 schedule words. -/
def sha1Extend (w : List Nat) : List Nat :=
  (List.range 64).foldl (fun ws _ =>
    ws ++ [rotl 1 (Nat.xor
      (Nat.xor (ws.getD (ws.length - 3) 0) (ws.getD (ws.length - 8) 0))
      (Nat.xor (ws.getD (ws.length - 14) 0) (ws.getD (ws.length - 16) 0)))]) w

/-- One SHA-1 compression step over the five-word state. -/
def sha1Step (w : List Nat) (st : Nat × Nat × Nat × Nat × Nat) (t : Nat) :
    Nat × Nat × Nat × Nat × Nat :=
  let a := st.1
  let b := st.2.1
  let c := st.2.2.1
  let d := st.2.2.2.1
  let e := st.2.2.2.2
  (u32 (rotl 5 a + sha1F t b c d + e + sha1K t + w.getD t 0), a, rotl 30 b, c, d)

/-- Compress one 64-byte block into the running SHA-1 state. -/
def sha1Compress (h : Nat × Nat × Nat × Nat × Nat) (block : List Nat) :
    Nat × Nat × Nat × Nat × Nat :=
  let w := sha1Extend ((chunks 4 block).map beWord)
  let f := (List.range 80).foldl (sha1Step w) h
  (u32 (h.1 + f.1), u32 (h.2.1 + f.2.1), u32 (h.2.2.1 + f.2.2.1),
   u32 (h.2.2.2.1 + f.2.2.2.1), u32 (h.2.2.2.2 + f.2.2.2.2))

/-- SHA-1 digest (20 bytes) of a byte list. -/
def sha1 (msg : List Nat) : List Nat :=
  let h := (chunks 64 (sha1Pad msg)).foldl sha1Compress
    (1732584193, 4023233417, 2562383102, 271733878, 3285377520)
  beBytes 4 h.1 ++ beBytes 4 h.2.1 ++ beBytes 4 h.2.2.1 ++
    beBytes 4 h.2.2.2.1 ++ beBytes 4 h.2.2.2.2

/-! ## Base64 (the `base64` crate STANDARD engine) -/

/-- Value of a standard-alphabet base64 character. -/
def b64Val (c : Char) : Option Nat :=
  if 'A' ≤ c ∧ c ≤ 'Z' then some (c.toNat - 65)
  else if 'a' ≤ c ∧ c ≤ 'z' then some (c.toNat - 97 + 26)
  else if '0' ≤ c ∧ c ≤ '9' then some (c.toNat - 48 + 52)
  else if c = '+' then some 62
  else if c = '/' then some 63
  else none

/-- Decode the final 4-character base64 quantum, which may carry padding.
Non-canonical trailing bits are rejected, as the STANDARD engine does. -/
def b64LastQuantum (a b c d : Char) : Option (List Nat) :=
  match b64Val a, b64Val b with
  | some va, some vb =>
    if c = '=' then
      if d = '=' then
        if vb % 16 = 0 then some [va * 4 + vb / 16] else none
      else none
    else
      match b64Val c with
      | some vc =>
        if d = '=' then
          if vc % 4 = 0 then some [va * 4 + vb / 16, (vb % 16) * 16 + vc / 4]
          else none
        else
          match b64Val d with
          | some vd => some [va * 4 + vb / 16, (vb % 16) * 16 + vc / 4, (vc % 4) * 64 + vd]
          | none => none
      | none => none
  | _, _ => none

/-- Decode a base64 character list, 4 characters at a time; padding may
appear only in the final quantum. -/
def b64Go : List Char → Option (List Nat)
  | [] => some []
  | a :: b :: c :: d :: rest =>
    if rest.isEmpty then b64LastQuantum a b c d
    else
      match b64Val a, b64Val b, b64Val c, b64Val d with
      | some va, some vb, some vc, some vd =>
        (b64Go rest).map (fun tail =>
          (va * 4 + vb / 16) :: ((vb % 16) * 16 + vc / 4) :: ((vc % 4) * 64 + vd) :: tail)
      | _, _, _, _ => none
  | _ => none

/-- Base64 decoding with required padding, modelling
`base64::engine::general_purpose::STANDARD.decode`. -/
def base64Decode (s : String) : Option (List Nat) := b64Go s.data

/-! ## AES-128, CBC mode, PKCS#7 unpadding
(the `aes`, `cbc` and `block-padding` crates used by `WxCrypto`). -/

/-- The AES S-box. -/
def sBox : List Nat :=
  [99, 124, 119, 123, 242, 107, 111, 197, 48, 1, 103, 43, 254, 215, 171, 118,
   202, 130, 201, 125, 250, 89, 71, 240, 173, 212, 162, 175, 156, 164, 114, 192,
   183, 253, 147, 38, 54, 63, 247, 204, 52, 165, 229, 241, 113, 216, 49, 21,
   4, 199, 35, 195, 24, 150, 5, 154, 7, 18, 128, 226, 235, 39, 178, 117,
   9, 131, 44, 26, 27, 110, 90, 160, 82, 59, 214, 179, 41, 227, 47, 132,
   83, 209, 0, 237, 32, 252, 177, 91, 106, 203, 190, 57, 74, 76, 88, 207,
   208, 239, 170, 251, 67, 77, 51, 133, 69, 249, 2, 127, 80, 60, 159, 168,
   81, 163, 64, 143, 146, 157, 56, 245, 188, 182, 218, 33, 16, 255, 243, 210,
   205, 12, 19, 236, 95, 151, 68, 23, 196, 167, 126, 61, 100, 93, 25, 115,
   96, 129, 79, 220, 34, 42, 144, 136, 70, 238, 184, 20, 222, 94, 11, 219,
   224, 50, 58, 10, 73, 6, 36, 92, 194, 211, 172, 98, 145, 149, 228, 121,
   231, 200, 55, 109, 141, 213, 78, 169, 108, 86, 244, 234, 101, 122, 174, 8,
   186, 120, 37, 46, 28, 166, 180, 198, 232, 221, 116, 31, 75, 189, 139, 138,
   112, 62, 181, 102, 72, 3, 246, 14, 97, 53, 87, 185, 134, 193, 29, 158,
   225, 248, 152, 17, 105, 217, 142, 148, 155, 30, 135, 233, 206, 85, 40, 223,
   140, 161, 137, 13, 191, 230, 66, 104, 65, 153, 45, 15, 176, 84, 187, 22]

/-- The AES inverse S-box. -/
def invSBox : List Nat :=
  [82, 9, 106, 213, 48, 54, 165, 56, 191, 64, 163, 158, 129, 243, 215, 251,
   124, 227, 57, 130, 155, 47, 255, 135, 52, 142, 67, 68, 196, 222, 233, 203,
   84, 123, 148, 50, 166, 194, 35, 61, 238, 76, 149, 11, 66, 250, 195, 78,
   8, 46, 161, 102, 40, 217, 36, 178, 118, 91, 162, 73, 109, 139, 209, 37,
   114, 248, 246, 100, 134, 104, 152, 22, 212, 164, 92, 204, 93, 101, 182, 146,
   108, 112, 72, 80, 253, 237, 185, 218, 94, 21, 70, 87, 167, 141, 157, 132,
   144, 216, 171, 0, 140, 188, 211, 10, 247, 228, 88, 5, 184, 179, 69, 6,
   208, 44, 30, 143, 202, 63, 15, 2, 193, 175, 189, 3, 1, 19, 138, 107,
   58, 145, 17, 65, 79, 103, 220, 234, 151, 242, 207, 206, 240, 180, 230, 115,
   150, 172, 116, 34, 231, 173, 53, 133, 226, 249, 55, 232, 28, 117, 223, 110,
   71, 241, 26, 113, 29, 41, 197, 137, 111, 183, 98, 14, 170, 24, 190, 27,
   252, 86, 62, 75, 198, 210, 121, 32, 154, 219, 192, 254, 120, 205, 90, 244,
   31, 221, 168, 51, 136, 7, 199, 49, 177, 18, 16, 89, 39, 128, 236, 95,
   96, 81, 127, 169, 25, 181, 74, 13, 45, 229, 122, 159, 147, 201, 156, 239,
   160, 224, 59, 77, 174, 42, 245, 176, 200, 235, 187, 60, 131, 83, 153, 97,
   23, 43, 4, 126, 186, 119, 214, 38, 225, 105, 20, 99, 85, 33, 12, 125]

/-- Multiplication by x in GF(2^8) with the AES polynomial. -/
def xtime (b : Nat) : Nat :=
  if 128 ≤ b then Nat.xor (u8 (b * 2)) 27 else b * 2

/-- GF(2^8) multiplication (Russian-peasant style, 8 steps). -/
def gmul (a b : Nat) : Nat :=
  ((List.range 8).foldl
    (fun st _ =>
      let acc := st.1
      let aa := st.2.1
      let bb := st.2.2
      (if bb % 2 = 1 then Nat.xor acc aa else acc, xtime aa, bb / 2))
    (0, a, b)).1

/-- AES round constants for AES-128 key expansion. -/
def rcon : List Nat := [1, 2, 4, 8, 16, 32, 64, 128, 27, 54]

/-- AES-128 key expansion into 44 four-byte words. -/
def keyExpansion (key : List Nat) : List (List Nat) :=
  (List.range 40).foldl
    (fun ws _ =>
      let last1 := ws.getD (ws.length - 1) []
      let last4 := ws.getD (ws.length - 4) []
      let t :=
        if ws.length % 4 = 0 then
          xorBytes
            ((match last1 with
              | [a, b, c, d] => [b, c, d, a]
              | l => l).map (fun x => sBox.getD x 0))
            [rcon.getD (ws.length / 4 - 1) 0, 0, 0, 0]
        else last1
      ws ++ [xorBytes last4 t])
    (chunks 4 key)

/-- The 16 bytes of round key `r` out of the expanded key schedule. -/
def roundKey (ws : List (List Nat)) (r : Nat) : List Nat :=
  (ws.getD (4 * r) []) ++ (ws.getD (4 * r + 1) []) ++
    (ws.getD (4 * r + 2) []) ++ (ws.getD (4 * r + 3) [])

/-- Inverse ShiftRows on the flat 16-byte column-major state. -/
def invShiftRows (st : List Nat) : List Nat :=
  (List.range 16).map (fun i =>
    let r := i % 4
    let c := i / 4
    st.getD (r + 4 * ((c + 4 - r) % 4)) 0)

/-- Inverse SubBytes. -/
def invSubBytes (st : List Nat) : List Nat := st.map (fun b => invSBox.getD b 0)

/-- Inverse MixColumns. -/
def invMixColumns (st : List Nat) : List Nat :=
  (chunks 4 st).flatMap (fun col =>
    match col with
    | [a, b, c, d] =>
      [Nat.xor (Nat.xor (gmul 14 a) (gmul 11 b)) (Nat.xor (gmul 13 c) (gmul 9 d)),
       Nat.xor (Nat.xor (gmul 9 a) (gmul 14 b)) (Nat.xor (gmul 11 c) (gmul 13 d)),
       Nat.xor (Nat.xor (gmul 13 a) (gmul 9 b)) (Nat.xor (gmul 14 c) (gmul 11 d)),
       Nat.xor (Nat.xor (gmul 11 a) (gmul 13 b)) (Nat.xor (gmul 9 c) (gmul 14 d))]
    | l => l)

/-- AES-128 inverse cipher (FIPS-197 InvCipher) on one 16-byte block. -/
def invCipher (ws : List (List Nat)) (ct : List Nat) : List Nat :=
  let st0 := xorBytes ct (roundKey ws 10)
  let st := (List.range 9).foldl
    (fun st i =>
      invMixColumns (xorBytes (invSubBytes (invShiftRows st)) (roundKey ws (9 - i))))
    st0
  xorBytes (invSubBytes (invShiftRows st)) (roundKey ws 0)

/-- AES-128-CBC raw decryption of a multiple-of-16-byte ciphertext. -/
def cbcDecrypt (key iv ct : List Nat) : List Nat :=
  let ws := keyExpansion key
  ((chunks 16 ct).foldl
    (fun acc blk => (acc.1 ++ xorBytes (invCipher ws blk) acc.2, blk))
    (([] : List Nat), iv)).1

/-- PKCS#7 unpadding of the decrypted buffer (checks every padding byte). -/
def pkcs7Unpad (data : List Nat) : Option (List Nat) :=
  match data.getLast? with
  | none => none
  | some p =>
    if 1 ≤ p ∧ p ≤ 16 ∧ p ≤ data.length ∧
        (data.drop (data.length - p)).all (fun b => b = p) then
      some (data.take (data.length - p))
    else none

/-- `Decryptor::decrypt_padded_mut::<Pkcs7>`: requires a non-empty ciphertext
whose length is a multiple of the block size, then CBC-decrypts and strips
PKCS#7 padding; any violation is an unpadding error (`none`). -/
def decryptPadded (key iv ct : List Nat) : Option (List Nat) :=
  if ct.length % 16 = 0 ∧ ct.length ≠ 0 then pkcs7Unpad (cbcDecrypt key iv ct)
  else none

/-! ## UTF-8 decoding (Rust `String::from_utf8`) -/

/-- Is `b` a UTF-8 continuation byte (`0x80..=0xBF`)? -/
def isCont (b : Nat) : Bool := 128 ≤ b ∧ b < 192

/-- Strict UTF-8 decoding (fuel-driven): rejects overlong forms, surrogates
and code points beyond U+10FFFF, like Rust `String::from_utf8`. -/
def utf8DecodeAux : Nat → List Nat → Option (List Char)
  | _, [] => some []
  | 0, _ => none
  | fuel + 1, b :: rest =>
    if b < 128 then
      (utf8DecodeAux fuel rest).map (fun cs => Char.ofNat b :: cs)
    else if b < 194 then none
    else if b < 224 then
      match rest with
      | b2 :: rest2 =>
        if isCont b2 then
          (utf8DecodeAux fuel rest2).map
            (fun cs => Char.ofNat ((b - 192) * 64 + (b2 - 128)) :: cs)
        else none
      | _ => none
    else if b < 240 then
      match rest with
      | b2 :: b3 :: rest2 =>
        if isCont b2 ∧ isCont b3 then
          let cp := (b - 224) * 4096 + (b2 - 128) * 64 + (b3 - 128)
          if 2048 ≤ cp ∧ ¬(55296 ≤ cp ∧ cp ≤ 57343) then
            (utf8DecodeAux fuel rest2).map (fun cs => Char.ofNat cp :: cs)
          else none
        else none
      | _ => none
    else if b < 245 then
      match rest with
      | b2 :: b3 :: b4 :: rest2 =>
        if isCont b2 ∧ isCont b3 ∧ isCont b4 then
          let cp := (b - 240) * 262144 + (b2 - 128) * 4096 + (b3 - 128) * 64 + (b4 - 128)
          if 65536 ≤ cp ∧ cp ≤ 1114111 then
            (utf8DecodeAux fuel rest2).map (fun cs => Char.ofNat cp :: cs)
          else none
        else none
      | _ => none
    else none

/-- Strict UTF-8 decoding of a byte list. -/
def utf8Decode (bs : List Nat) : Option (List Char) := utf8DecodeAux bs.length bs

/-! ## JSON (modelling `serde_json`)

`serde_json::from_str` is modelled by a recursive-descent JSON reader over
character lists, followed by schema extraction matching the derived
`Deserialize` implementations: unknown object fields are ignored, duplicate
known fields are an error, `Option` fields treat absent and `null` as `None`,
and `#[serde(default)]` fields fall back to their default when absent.
Numbers record whether the literal was a pure integer; integer-typed fields
(`u8`, `i64`) require a pure in-range integer literal. -/

inductive JsonValue where
  | jnull
  | jbool (b : Bool)
  | jnum (isInt : Bool) (n : Int)
  | jstr (s : String)
  | jarr (xs : List JsonValue)
  | jobj (fields : List (String × JsonValue))
deriving Repr, Inhabited

/-- Skip JSON whitespace. -/
def skipWs : List Char → List Char
  | c :: rest =>
    if c = ' ' ∨ c = '\t' ∨ c = '\n' ∨ c = '\r' then skipWs rest else c :: rest
  | [] => []

/-- Is `c` an ASCII decimal digit? -/
def isDigitC (c : Char) : Bool := '0' ≤ c ∧ c ≤ '9'

/-- Split off a maximal run of decimal digits. -/
def spanDigits : List Char → List Char × List Char
  | c :: rest =>
    if isDigitC c then
      let p := spanDigits rest
      (c :: p.1, p.2)
    else ([], c :: rest)
  | [] => ([], [])

/-- Natural-number value of a digit run. -/
def digitsVal (ds : List Char) : Nat :=
  ds.foldl (fun acc c => acc * 10 + (c.toNat - 48)) 0

/-- Exponent tail: optional sign then at least one digit. -/
def jpExpTail (cs : List Char) : Option (List Char) :=
  let cs1 :=
    match cs with
    | c :: rest => if c = '+' ∨ c = '-' then rest else cs
    | [] => cs
  match spanDigits cs1 with
  | ([], _) => none
  | (_, rest) => some rest

/-- Fraction/exponent tail of a JSON number. -/
def jpNumberTail (neg : Bool) (intVal : Nat) (cs : List Char) :
    Option ((Bool × Int) × List Char) :=
  let signed : Int := if neg then -(intVal : Int) else (intVal : Int)
  match cs with
  | '.' :: rest =>
    match spanDigits rest with
    | ([], _) => none
    | (_, rest2) =>
      match rest2 with
      | e :: rest3 =>
        if e = 'e' ∨ e = 'E' then (jpExpTail rest3).map (fun r => ((false, 0), r))
        else some ((false, 0), rest2)
      | [] => some ((false, 0), [])
  | e :: rest =>
    if e = 'e' ∨ e = 'E' then (jpExpTail rest).map (fun r => ((false, 0), r))
    else some ((true, signed), e :: rest)
  | [] => some ((true, signed), [])

/-- Parse a JSON number per the JSON grammar, recording whether the literal
is a pure integer and, for pure integers, its value. -/
def jpNumber (cs : List Char) : Option ((Bool × Int) × List Char) :=
  let neg := cs.head? = some '-'
  let cs1 := if neg then cs.drop 1 else cs
  match cs1 with
  | c :: rest =>
    if c = '0' then
      jpNumberTail neg 0 rest
    else if isDigitC c then
      let p := spanDigits rest
      jpNumberTail neg (digitsVal (c :: p.1)) p.2
    else none
  | [] => none

/-- Parse four hexadecimal digits of a `\u` escape. -/
def jpHex4 (cs : List Char) : Option (Nat × List Char) :=
  match cs with
  | a :: b :: c :: d :: rest =>
    let hv := fun (x : Char) =>
      if isDigitC x then some (x.toNat - 48)
      else if 'a' ≤ x ∧ x ≤ 'f' then some (x.toNat - 97 + 10)
      else if 'A' ≤ x ∧ x ≤ 'F' then some (x.toNat - 65 + 10)
      else none
    match hv a, hv b, hv c, hv d with
    | some va, some vb, some vc, some vd =>
      some (va * 4096 + vb * 256 + vc * 16 + vd, rest)
    | _, _, _, _ => none
  | _ => none

/-- Parse a JSON string body after the opening quote; handles escapes and
surrogate pairs, rejecting lone surrogates and raw control characters. -/
def jpStringBody : Nat → List Char → Option (List Char × List Char)
  | 0, _ => none
  | _, [] => none
  | fuel + 1, c :: rest =>
    if c = '"' then some ([], rest)
    else if c = '\\' then
      match rest with
      | e :: rest2 =>
        if e = 'u' then
          match jpHex4 rest2 with
          | some (cp, rest3) =>
            if 55296 ≤ cp ∧ cp ≤ 56319 then
              match rest3 with
              | '\\' :: 'u' :: rest4 =>
                match jpHex4 rest4 with
                | some (lo, rest5) =>
                  if 56320 ≤ lo ∧ lo ≤ 57343 then
                    (jpStringBody fuel rest5).map (fun p =>
                      (Char.ofNat (65536 + (cp - 55296) * 1024 + (lo - 56320)) :: p.1, p.2))
                  else none
                | none => none
              | _ => none
            else if 56320 ≤ cp ∧ cp ≤ 57343 then none
            else (jpStringBody fuel rest3).map (fun p => (Char.ofNat cp :: p.1, p.2))
          | none => none
        else
          let esc : Option Char :=
            if e = '"' then some '"'
            else if e = '\\' then some '\\'
            else if e = '/' then some '/'
            else if e = 'b' then some (Char.ofNat 8)
            else if e = 'f' then some (Char.ofNat 12)
            else if e = 'n' then some '\n'
            else if e = 'r' then some '\r'
            else if e = 't' then some '\t'
            else none
          match esc with
          | some ec => (jpStringBody fuel rest2).map (fun p => (ec :: p.1, p.2))
          | none => none
      | [] => none
    else if c.toNat < 32 then none
    else (jpStringBody fuel rest).map (fun p => (c :: p.1, p.2))

mutual

/-- Parse one JSON value. -/
def jpValue : Nat → List Char → Option (JsonValue × List Char)
  | 0, _ => none
  | fuel + 1, cs =>
    match skipWs cs with
    | [] => none
    | c :: rest =>
      if c = 'n' then
        match rest with
        | 'u' :: 'l' :: 'l' :: rest2 => some (.jnull, rest2)
        | _ => none
      else if c = 't' then
        match rest with
        | 'r' :: 'u' :: 'e' :: rest2 => some (.jbool true, rest2)
        | _ => none
      else if c = 'f' then
        match rest with
        | 'a' :: 'l' :: 's' :: 'e' :: rest2 => some (.jbool false, rest2)
        | _ => none
      else if c = '"' then
        (jpStringBody (rest.length + 1) rest).map (fun p => (.jstr (String.mk p.1), p.2))
      else if c = '[' then
        match skipWs rest with
        | ']' :: rest2 => some (.jarr [], rest2)
        | cs2 => (jpItems fuel cs2).map (fun p => (.jarr p.1, p.2))
      else if c = '\x7b' then
        match skipWs rest with
        | '\x7d' :: rest2 => some (.jobj [], rest2)
        | cs2 => (jpMembers fuel cs2).map (fun p => (.jobj p.1, p.2))
      else if c = '-' ∨ isDigitC c then
        (jpNumber (c :: rest)).map (fun p => (.jnum p.1.1 p.1.2, p.2))
      else none

/-- Parse the non-empty element list of a JSON array. -/
def jpItems : Nat → List Char → Option (List JsonValue × List Char)
  | 0, _ => none
  | fuel + 1, cs =>
    match jpValue fuel cs with
    | some (v, rest) =>
      match skipWs rest with
      | ',' :: rest2 => (jpItems fuel rest2).map (fun p => (v :: p.1, p.2))
      | ']' :: rest2 => some ([v], rest2)
      | _ => none
    | none => none

/-- Parse the non-empty member list of a JSON object. -/
def jpMembers : Nat → List Char → Option (List (String × JsonValue) × List Char)
  | 0, _ => none
  | fuel + 1, cs =>
    match skipWs cs with
    | '"' :: rest =>
      match jpStringBody (rest.length + 1) rest with
      | some (key, rest2) =>
        match skipWs rest2 with
        | ':' :: rest3 =>
          match jpValue fuel rest3 with
          | some (v, rest4) =>
            match skipWs rest4 with
            | ',' :: rest5 =>
              (jpMembers fuel rest5).map (fun p => ((String.mk key, v) :: p.1, p.2))
            | '\x7d' :: rest5 => some ([(String.mk key, v)], rest5)
            | _ => none
          | none => none
        | _ => none
      | none => none
    | _ => none

end

/-- `serde_json::from_str` document parse: one value, then only trailing
whitespace. -/
def jsonOfChars (cs : List Char) : Option JsonValue :=
  match jpValue (2 * cs.length + 2) cs with
  | some (v, rest) => if skipWs rest = [] then some v else none
  | none => none

/-! ## Schema extraction for the two decrypted payload shapes -/

/-- The watermark object embedded in a decrypted WeChat payload. -/
structure Watermark where
  appid : String
  timestamp : Int
deriving DecidableEq, Repr, Inhabited

/-- `DecryptedUserInfo` from `src/utils/wx_crypto.rs`. -/
structure DecryptedUserInfo where
  open_id : String
  nick_name : String
  gender : Nat
  language : String
  city : String
  province : String
  country : String
  avatar_url : String
  union_id : Option String
  watermark : Watermark
deriving DecidableEq, Repr, Inhabited

/-- `UserProfileInfo` from `src/utils/wx_crypto.rs`. -/
structure UserProfileInfo where
  nick_name : String
  avatar_url : String
  gender : Nat
  language : String
  city : String
  province : String
  country : String
  is_demote : Bool
deriving DecidableEq, Repr, Inhabited

/-- Look up a known field: absent is `ok none`; a duplicate occurrence is a
deserialization error, as in derived serde visitors. -/
def getField (fields : List (String × JsonValue)) (name : String) :
    Except Unit (Option JsonValue) :=
  match fields.filter (fun f => f.1 = name) with
  | [] => .ok none
  | [f] => .ok (some f.2)
  | _ => .error ()

/-- Extract a required `String` field. -/
def reqString (fields : List (String × JsonValue)) (name : String) :
    Option String :=
  match getField fields name with
  | .ok (some (.jstr s)) => some s
  | _ => none

/-- Extract a `u8` field: requires a pure integer literal in `0..=255`. -/
def reqU8 (fields : List (String × JsonValue)) (name : String) : Option Nat :=
  match getField fields name with
  | .ok (some (.jnum true n)) =>
    if 0 ≤ n ∧ n ≤ 255 then some n.toNat else none
  | _ => none

/-- Extract an `i64` field: pure integer literal within the `i64` range. -/
def reqI64 (fields : List (String × JsonValue)) (name : String) : Option Int :=
  match getField fields name with
  | .ok (some (.jnum true n)) =>
    if -9223372036854775808 ≤ n ∧ n ≤ 9223372036854775807 then some n else none
  | _ => none

/-- Extract an `Option<String>` field: absent or `null` is `none`. -/
def optString (fields : List (String × JsonValue)) (name : String) :
    Option (Option String) :=
  match getField fields name with
  | .ok none => some none
  | .ok (some .jnull) => some none
  | .ok (some (.jstr s)) => some (some s)
  | _ => none

/-- Extract a defaulted `String` field (`#[serde(default)]`). -/
def dfltString (fields : List (String × JsonValue)) (name : String) :
    Option String :=
  match getField fields name with
  | .ok none => some ""
  | .ok (some (.jstr s)) => some s
  | _ => none

/-- Extract a defaulted `u8` field (`#[serde(default)]`). -/
def dfltU8 (fields : List (String × JsonValue)) (name : String) : Option Nat :=
  match getField fields name with
  | .ok none => some 0
  | .ok (some (.jnum true n)) =>
    if 0 ≤ n ∧ n ≤ 255 then some n.toNat else none
  | _ => none

/-- Extract a defaulted `bool` field (`#[serde(default)]`). -/
def dfltBool (fields : List (String × JsonValue)) (name : String) :
    Option Bool :=
  match getField fields name with
  | .ok none => some false
  | .ok (some (.jbool b)) => some b
  | _ => none

/-- Deserialize a `Watermark` value. -/
def watermarkFromJson : JsonValue → Option Watermark
  | .jobj fields =>
    match reqString fields "appid", reqI64 fields "timestamp" with
    | some a, some t => some ⟨a, t⟩
    | _, _ => none
  | _ => none

/-- Deserialize a `DecryptedUserInfo` value (serde field renames applied). -/
def decryptedUserInfoFromJson : JsonValue → Option DecryptedUserInfo
  | .jobj fields =>
    match reqString fields "openId", reqString fields "nickName",
        reqU8 fields "gender", reqString fields "language" with
    | some oid, some nick, some g, some lang =>
      match reqString fields "city", reqString fields "province",
          reqString fields "country", reqString fields "avatarUrl" with
      | some city, some prov, some ctry, some av =>
        match optString fields "unionId", getField fields "watermark" with
        | some uid, .ok (some wj) =>
          (watermarkFromJson wj).map (fun w =>
            ⟨oid, nick, g, lang, city, prov, ctry, av, uid, w⟩)
        | _, _ => none
      | _, _, _, _ => none
    | _, _, _, _ => none
  | _ => none

/-- Deserialize a `UserProfileInfo` value (serde renames and defaults). -/
def userProfileInfoFromJson : JsonValue → Option UserProfileInfo
  | .jobj fields =>
    match reqString fields "nickName", reqString fields "avatarUrl",
        dfltU8 fields "gender", dfltString fields "language" with
    | some nick, some av, some g, some lang =>
      match dfltString fields "city", dfltString fields "province",
          dfltString fields "country", dfltBool fields "is_demote" with
      | some city, some prov, some ctry, some dem =>
        some ⟨nick, av, g, lang, city, prov, ctry, dem⟩
      | _, _, _, _ => none
    | _, _, _, _ => none
  | _ => none

/-! ## `WxCrypto` (`src/utils/wx_crypto.rs`) -/

namespace WxCrypto

/-- `WxCrypto::verify_signature`: SHA-1 over `raw_data ++ session_key`,
hex-encoded, compared to the supplied signature with both sides lowercased.
The Rust function returns `Result<bool, String>` but has no error path. -/
def verify_signature (raw_data session_key signature : String) :
    Except String Bool :=
  let sign_string := raw_data ++ session_key
  let computed_signature := hexEncode (sha1 (strBytes sign_string))
  .ok (lowerCL computed_signature = lowerCL signature.data)

/-- `WxCrypto::decrypt_user_info`: base64-decode the three inputs, check the
key and IV lengths, AES-128-CBC decrypt with PKCS#7 unpadding, UTF-8 decode,
then deserialize `DecryptedUserInfo`. Error messages keep the Rust prefixes
(without the appended source-error text). -/
def decrypt_user_info (encrypted_data session_key iv : String) :
    Except String DecryptedUserInfo :=
  match base64Decode encrypted_data with
  | none => .error "Base64解码失败"
  | some encrypted_bytes =>
    match base64Decode session_key with
    | none => .error "Session key解码失败"
    | some session_key_bytes =>
      match base64Decode iv with
      | none => .error "IV解码失败"
      | some iv_bytes =>
        if session_key_bytes.length ≠ 16 then
          .error ("Session key长度错误，期望16字节，实际" ++
            toString session_key_bytes.length ++ "字节")
        else if iv_bytes.length ≠ 16 then
          .error ("IV长度错误，期望16字节，实际" ++
            toString iv_bytes.length ++ "字节")
        else
          match decryptPadded session_key_bytes iv_bytes encrypted_bytes with
          | none => .error "解密失败"
          | some decrypted_data =>
            match utf8Decode decrypted_data with
            | none => .error "UTF-8转换失败"
            | some decrypted_text =>
              match (jsonOfChars decrypted_text).bind decryptedUserInfoFromJson with
              | none => .error "JSON解析失败"
              | some user_info => .ok user_info

/-- `WxCrypto::verify_watermark`: equality of the embedded appid with the
expected one; the timestamp is logged but not checked. Never errors. -/
def verify_watermark (user_info : DecryptedUserInfo) (expected_appid : String) :
    Except String Bool :=
  .ok (user_info.watermark.appid = expected_appid)

/-- `WxCrypto::decrypt_user_profile`: the same pipeline as
`decrypt_user_info` with the `UserProfileInfo` schema. -/
def decrypt_user_profile (encrypted_data session_key iv : String) :
    Except String UserProfileInfo :=
  match base64Decode encrypted_data with
  | none => .error "Base64解码失败"
  | some encrypted_bytes =>
    match base64Decode session_key with
    | none => .error "Session key解码失败"
    | some session_key_bytes =>
      match base64Decode iv with
      | none => .error "IV解码失败"
      | some iv_bytes =>
        if session_key_bytes.length ≠ 16 then
          .error ("Session key长度错误，期望16字节，实际" ++
            toString session_key_bytes.length ++ "字节")
        else if iv_bytes.length ≠ 16 then
          .error ("IV长度错误，期望16字节，实际" ++
            toString iv_bytes.length ++ "字节")
        else
          match decryptPadded session_key_bytes iv_bytes encrypted_bytes with
          | none => .error "解密失败"
          | some decrypted_data =>
            match utf8Decode decrypted_data with
            | none => .error "UTF-8转换失败"
            | some decrypted_text =>
              match (jsonOfChars decrypted_text).bind userProfileInfoFromJson with
              | none => .error "JSON解析失败"
              | some profile_info => .ok profile_info

end WxCrypto

/-! ## Data model (`src/models/auth.rs`, `src/cache/user.rs`,
`src/cache/session.rs`)

The `User` struct carries the WeChat columns (`wx_openid`, `wx_unionid`,
`wx_session_key`) that `guards.rs`, `routes/auth.rs` and
`models/wx_auth.rs` all read off it. -/

structure User where
  id : Nat
  username : String
  email : String
  full_name : Option String
  avatar_url : Option String
  is_active : Bool
  is_admin : Bool
  is_guest : Bool
  wx_openid : Option String
  wx_unionid : Option String
  wx_session_key : Option String
  last_login_at : Option Int
  created_at : Int
  updated_at : Int
deriving DecidableEq, Repr, Inhabited

/-- `UserSession` from `src/models/auth.rs`. -/
structure UserSession where
  id : Nat
  user_id : Nat
  session_token : String
  user_agent : Option String
  ip_address : Option String
  expires_at : Int
  created_at : Int
deriving DecidableEq, Repr, Inhabited

/-- The cached user projection (`CachedUser` in `src/cache/user.rs`); it also
carries the WeChat fields that `guards.rs` reads back out of the cached
projection when rebuilding a `User`. -/
structure CachedUser where
  id : Nat
  username : String
  email : String
  full_name : Option String
  avatar_url : Option String
  is_active : Bool
  is_admin : Bool
  is_guest : Bool
  wx_openid : Option String
  wx_unionid : Option String
  wx_session_key : Option String
deriving DecidableEq, Repr, Inhabited

/-- `CachedSession` from `src/cache/session.rs`. -/
structure CachedSession where
  id : Nat
  user_id : Nat
  session_token : String
  user_agent : Option String
  ip_address : Option String
  expires_at : Int
  created_at : Int
deriving DecidableEq, Repr, Inhabited

/-- `CachedUserSession` from `src/cache/session.rs`. -/
structure CachedUserSession where
  user : CachedUser
  session : CachedSession
deriving DecidableEq, Repr, Inhabited

/-- `impl From<User> for CachedUser`. -/
def CachedUser.ofUser (u : User) : CachedUser :=
  ⟨u.id, u.username, u.email, u.full_name, u.avatar_url, u.is_active,
   u.is_admin, u.is_guest, u.wx_openid, u.wx_unionid, u.wx_session_key⟩

/-- `impl From<UserSession> for CachedSession`. -/
def CachedSession.ofSession (s : UserSession) : CachedSession :=
  ⟨s.id, s.user_id, s.session_token, s.user_agent, s.ip_address,
   s.expires_at, s.created_at⟩

/-! ## The Redis cache wrapper (`src/cache/redis.rs`, `src/cache/mod.rs`)

A cache value is one of the JSON-serialized shapes the application stores.
The store is a list of `(key, value, optional expiry time)` entries; a key
whose expiry time has passed behaves as absent.  Per-key failure oracles
model backend errors: the `RedisPool` wrapper degrades `get`, `delete`,
`expire` and `keys` failures to benign values and only propagates `set`
and `incr` errors, exactly as `redis.rs` does. -/

inductive CacheVal where
  | vUser (u : CachedUser)
  | vSession (s : CachedSession)
  | vUserSession (us : CachedUserSession)
  | vInt (n : Int)
  | vStr (s : String)
deriving DecidableEq, Repr

structure Redis where
  entries : List (String × CacheVal × Option Int)
  failGet : String → Bool
  failSet : String → Bool
  failDel : String → Bool
  failIncr : String → Bool
  failExpire : String → Bool
  failKeys : Bool

/-- Is the entry still live at time `now`? (`none` = no TTL). -/
def liveEntry (now : Int) (e : String × CacheVal × Option Int) : Bool :=
  match e.2.2 with
  | none => true
  | some t => now < t

/-- Remove every binding of `key`. -/
def removeKey (l : List (String × CacheVal × Option Int)) (key : String) :
    List (String × CacheVal × Option Int) :=
  l.filter (fun e => e.1 ≠ key)

/-- Raw live lookup. -/
def lookupEntry (r : Redis) (now : Int) (key : String) : Option CacheVal :=
  match r.entries.find? (fun e => e.1 = key) with
  | some e => if liveEntry now e then some e.2.1 else none
  | none => none

/-- `RedisPool::get`: backend errors and deserialization mismatches both
degrade to `None`. -/
def redisGet (r : Redis) (now : Int) (key : String) : Option CacheVal :=
  if r.failGet key then none else lookupEntry r now key

/-- `RedisPool::set` with TTL; propagates backend errors. -/
def redisSet (r : Redis) (now : Int) (key : String) (val : CacheVal)
    (ttl : Int) : Except Unit Redis :=
  if r.failSet key then .error ()
  else .ok { r with entries := (key, val, some (now + ttl)) :: removeKey r.entries key }

/-- `RedisPool::delete`: backend errors degrade to `false` with the store
unchanged. -/
def redisDelete (r : Redis) (now : Int) (key : String) : Redis × Bool :=
  if r.failDel key then (r, false)
  else ({ r with entries := removeKey r.entries key },
        (lookupEntry r now key).isSome)

/-- `RedisPool::increment`: propagates backend errors; a fresh key is
created with no TTL, and an existing live integer keeps its TTL. -/
def redisIncr (r : Redis) (now : Int) (key : String) (delta : Int) :
    Except Unit (Redis × Int) :=
  if r.failIncr key then .error ()
  else
    match r.entries.find? (fun e => e.1 = key) with
    | some e =>
      if liveEntry now e then
        match e.2.1 with
        | .vInt n =>
          .ok ({ r with entries := (key, .vInt (n + delta), e.2.2) :: removeKey r.entries key },
               n + delta)
        | _ => .error ()
      else
        .ok ({ r with entries := (key, .vInt delta, none) :: removeKey r.entries key }, delta)
    | none =>
      .ok ({ r with entries := (key, .vInt delta, none) :: removeKey r.entries key }, delta)

/-- `RedisPool::expire`: refresh the TTL of a live key; failures degrade to
`false`. -/
def redisExpire (r : Redis) (now : Int) (key : String) (ttl : Int) :
    Redis × Bool :=
  if r.failExpire key then (r, false)
  else
    match r.entries.find? (fun e => e.1 = key) with
    | some e =>
      if liveEntry now e then
        ({ r with entries := (key, e.2.1, some (now + ttl)) :: removeKey r.entries key }, true)
      else (r, false)
    | none => (r, false)

/-- Does `key` match the glob `pat`? Only trailing-star patterns are used by
the application (`rocket_taro:user_session:*` and the like). -/
def patMatch (pat key : String) : Bool :=
  pat.data.getLast? = some '*' ∧ pat.data.dropLast.isPrefixOf key.data

/-- `RedisPool::keys`: live keys matching the pattern; failures degrade to
the empty list. -/
def redisKeysOp (r : Redis) (now : Int) (pat : String) : List String :=
  if r.failKeys then []
  else ((r.entries.filter (fun e => liveEntry now e ∧ patMatch pat e.1)).map
    (fun e => e.1))

/-- `cache_key` from `src/cache/mod.rs` with `CACHE_PREFIX = "rocket_taro"`. -/
def cacheKey (category identifier : String) : String :=
  "rocket_taro" ++ ":" ++ category ++ ":" ++ identifier

/-- TTL constants from `src/cache/mod.rs` (seconds). -/
def ttlUserSession : Int := 7 * 24 * 3600

/-- 30-minute user-info TTL. -/
def ttlUserInfo : Int := 30 * 60

/-- 15-minute login-failure TTL. -/
def ttlLoginAttempts : Int := 15 * 60

/-! ## `SessionCache` (`src/cache/session.rs`)

All inner cache reads and deletes go through the degrading `RedisPool`
wrapper, so the `?` operators in the Rust methods that use only `get` and
`delete` can never propagate an error; those methods are modelled as total
functions on the store. -/

namespace SessionCache

/-- `SessionCache::cache_session`: stores the session under both the
token-keyed and the id-keyed entries. -/
def cache_session (r : Redis) (now : Int) (session : UserSession) :
    Except Unit Redis :=
  let token_key := cacheKey "session_token" session.session_token
  let session_key := cacheKey "session" (toString session.id)
  let cached := CachedSession.ofSession session
  match redisSet r now token_key (.vSession cached) ttlUserSession with
  | .error e => .error e
  | .ok r1 => redisSet r1 now session_key (.vSession cached) ttlUserSession

/-- `SessionCache::cache_user_session`: stores the combined projection under
the `user_session:<token>` key. -/
def cache_user_session (r : Redis) (now : Int) (user : User)
    (session : UserSession) : Except Unit Redis :=
  let key := cacheKey "user_session" session.session_token
  redisSet r now key
    (.vUserSession ⟨CachedUser.ofUser user, CachedSession.ofSession session⟩)
    ttlUserSession

/-- `SessionCache::get_session_by_token` (never errors). -/
def get_session_by_token (r : Redis) (now : Int) (session_token : String) :
    Except Unit (Option CachedSession) :=
  .ok (match redisGet r now (cacheKey "session_token" session_token) with
    | some (.vSession s) => some s
    | _ => none)

/-- `SessionCache::get_user_session_by_token` (never errors). -/
def get_user_session_by_token (r : Redis) (now : Int) (session_token : String) :
    Except Unit (Option CachedUserSession) :=
  .ok (match redisGet r now (cacheKey "user_session" session_token) with
    | some (.vUserSession us) => some us
    | _ => none)

/-- `SessionCache::invalidate_session`: deletes the id-keyed entry when the
token-keyed entry is readable, then the token-keyed and the combined
user+session entries. -/
def invalidate_session (r : Redis) (now : Int) (session_token : String) :
    Redis :=
  let token_key := cacheKey "session_token" session_token
  let user_session_key := cacheKey "user_session" session_token
  let r1 :=
    match get_session_by_token r now session_token with
    | .ok (some session) =>
      (redisDelete r now (cacheKey "session" (toString session.id))).1
    | _ => r
  let r2 := (redisDelete r1 now token_key).1
  (redisDelete r2 now user_session_key).1

/-- The body of the `invalidate_user_sessions` scan loop: re-read the key
and, when the embedded user id matches, invalidate that session and count
it. -/
def invalidateStep (now : Int) (user_id : Nat) :
    Redis × Nat → String → Redis × Nat
  | (r, count), key =>
    match redisGet r now key with
    | some (.vUserSession user_session) =>
      if user_session.user.id = user_id then
        (invalidate_session r now user_session.session.session_token,
         count + 1)
      else (r, count)
    | _ => (r, count)

/-- `SessionCache::invalidate_user_sessions`: scans `user_session:*` keys,
re-reads each, and invalidates those whose embedded user id matches. -/
def invalidate_user_sessions (r : Redis) (now : Int) (user_id : Nat) :
    Redis × Nat :=
  let pattern := cacheKey "user_session" "*"
  let keys := redisKeysOp r now pattern
  keys.foldl (invalidateStep now user_id) (r, 0)

/-- `SessionCache::update_session_access`: stores the current timestamp
under the `session_access:<token>` key. -/
def update_session_access (r : Redis) (now : Int) (session_token : String) :
    Except Unit Redis :=
  redisSet r now (cacheKey "session_access" session_token) (.vInt now)
    ttlUserSession

end SessionCache

/-! ## `UserCache` (`src/cache/user.rs`) -/

namespace UserCache

/-- `UserCache::cache_user`. -/
def cache_user (r : Redis) (now : Int) (user : User) : Except Unit Redis :=
  redisSet r now (cacheKey "user" (toString user.id))
    (.vUser (CachedUser.ofUser user)) ttlUserInfo

/-- `UserCache::cache_username_mapping`. -/
def cache_username_mapping (r : Redis) (now : Int) (username : String)
    (user_id : Nat) : Except Unit Redis :=
  redisSet r now (cacheKey "username" username) (.vStr (toString user_id))
    ttlUserInfo

/-- `UserCache::record_login_failure`: atomic increment, then re-apply the
15-minute TTL; only the increment can propagate an error. -/
def record_login_failure (r : Redis) (now : Int) (username : String) :
    Except Unit (Redis × Int) :=
  let key := cacheKey "login_failures" username
  match redisIncr r now key 1 with
  | .error e => .error e
  | .ok (r1, count) => .ok ((redisExpire r1 now key ttlLoginAttempts).1, count)

/-- `UserCache::get_login_failures`: an absent (or non-integer) value reads
as 0; never errors. -/
def get_login_failures (r : Redis) (now : Int) (username : String) : Int :=
  match redisGet r now (cacheKey "login_failures" username) with
  | some (.vInt count) => count
  | _ => 0

/-- `UserCache::clear_login_failures`. -/
def clear_login_failures (r : Redis) (now : Int) (username : String) : Redis :=
  (redisDelete r now (cacheKey "login_failures" username)).1

/-- `UserCache::is_account_locked`: failure count at or above the
caller-supplied threshold.  The Rust method returns `Result` but, built on
the degrading `get`, it never errors. -/
def is_account_locked (r : Redis) (now : Int) (username : String)
    (max_attempts : Int) : Bool :=
  get_login_failures r now username ≥ max_attempts

end UserCache

/-! ## DurableStore queries (`src/database/auth.rs`) -/

/-- A user row, carrying the `password_hash` column that the Rust `User`
struct does not expose. -/
structure DbUser where
  user : User
  password_hash : String
deriving DecidableEq, Repr

/-- The database contents. -/
structure Db where
  users : List DbUser
  sessions : List UserSession
deriving DecidableEq, Repr

/-- A database connection that may be unreachable. -/
structure DbConn where
  db : Db
  reachable : Bool
deriving DecidableEq, Repr

/-- The row set of the `validate_session` SQL: join `user_sessions` to
`users` on `user_id`, requiring the given token, `expires_at` in the
future, and an active user; `query_opt` takes the first row. -/
def validateSessionRows (db : Db) (now : Int) (session_token : String) :
    Option (User × UserSession) :=
  (db.sessions.filterMap (fun s =>
    if s.session_token = session_token ∧ now < s.expires_at then
      (db.users.find? (fun u => u.user.id = s.user_id ∧ u.user.is_active)).map
        (fun u => (u.user, s))
    else none)).head?

/-- `validate_session`: errors when the store is unreachable. (The
`last_accessed_at` bump on a hit is a column this model does not carry.) -/
def validate_session (c : DbConn) (now : Int) (session_token : String) :
    Except Unit (Option (User × UserSession)) :=
  if c.reachable then .ok (validateSessionRows c.db now session_token)
  else .error ()

/-- `LoginRequest` from `src/models/auth.rs`. -/
structure LoginRequest where
  username : String
  password : String
deriving DecidableEq, Repr

/-- The row lookup of `authenticate_user`: find the active user by
username, then verify the bcrypt hash (`vfy` models `bcrypt::verify`). -/
def authenticateRows (db : Db) (vfy : String → String → Bool)
    (login_req : LoginRequest) : Option User :=
  match db.users.find? (fun u =>
      u.user.username = login_req.username ∧ u.user.is_active) with
  | some row => if vfy row.password_hash login_req.password then some row.user else none
  | none => none

/-- `authenticate_user`: errors when the store is unreachable. -/
def authenticate_user (c : DbConn) (vfy : String → String → Bool)
    (login_req : LoginRequest) : Except Unit (Option User) :=
  if c.reachable then .ok (authenticateRows c.db vfy login_req) else .error ()

/-! ## The request guard (`src/auth/guards.rs`) -/

inductive AuthError where
  | Missing
  | Invalid
  | Expired
  | DatabaseError
deriving DecidableEq, Repr

inductive HttpStatus where
  | Unauthorized
  | InternalServerError
deriving DecidableEq, Repr

inductive GuardOutcome where
  | success (user : User) (session : UserSession)
  | failure (status : HttpStatus) (e : AuthError)
deriving DecidableEq, Repr

/-- The pieces of the incoming request the guard consumes, plus whether the
managed `RedisPool` and `DbPool` states are available. -/
structure RequestCtx where
  cookie_token : Option String
  authorization : Option String
  hasRedisState : Bool
  hasDbState : Bool
deriving DecidableEq, Repr

/-- Byte-faithful prefix test (Rust `str::starts_with` on ASCII needles). -/
def strStartsWithM (s pre : String) : Bool := pre.data.isPrefixOf s.data

/-- Character drop, modelling `&auth[7..]` for the 7-byte ASCII needle. -/
def strDropM (s : String) (n : Nat) : String := String.mk (s.data.drop n)

/-- Token extraction: the private cookie takes precedence; otherwise an
`Authorization: Bearer <token>` header. -/
def extract_session_token (req : RequestCtx) : Option String :=
  match req.cookie_token with
  | some v => some v
  | none =>
    match req.authorization with
    | some auth =>
      if strStartsWithM auth "Bearer " then some (strDropM auth 7) else none
    | none => none

/-- The `User` the guard rebuilds from a cached projection: the time fields
come from the cached session and `last_login_at` is dropped. -/
def userFromCached (cus : CachedUserSession) : User :=
  ⟨cus.user.id, cus.user.username, cus.user.email, cus.user.full_name,
   cus.user.avatar_url, cus.user.is_active, cus.user.is_admin,
   cus.user.is_guest, cus.user.wx_openid, cus.user.wx_unionid,
   cus.user.wx_session_key, none, cus.session.created_at,
   cus.session.created_at⟩

/-- The `UserSession` the guard rebuilds from a cached projection. -/
def sessionFromCached (cus : CachedUserSession) : UserSession :=
  ⟨cus.session.id, cus.session.user_id, cus.session.session_token,
   cus.session.user_agent, cus.session.ip_address, cus.session.expires_at,
   cus.session.created_at⟩

/-- `AuthenticatedUser::from_request`: extract the token; try the cache
(with a best-effort last-access bump on a hit); on a miss or cache error
fall back to the database, repopulating the cache best-effort on success;
classify the outcome. Returns the outcome and the final cache state. -/
def from_request (req : RequestCtx) (r : Redis) (c : DbConn) (now : Int) :
    GuardOutcome × Redis :=
  match extract_session_token req with
  | some token =>
    let cacheStep : Option CachedUserSession × Redis :=
      if req.hasRedisState then
        match SessionCache.get_user_session_by_token r now token with
        | .ok (some cached_session) =>
          let r1 :=
            match SessionCache.update_session_access r now token with
            | .ok r1 => r1
            | .error _ => r
          (some cached_session, r1)
        | .ok none => (none, r)
        | .error _ => (none, r)
      else (none, r)
    match cacheStep with
    | (some cached_session, r1) =>
      (.success (userFromCached cached_session) (sessionFromCached cached_session), r1)
    | (none, r1) =>
      if req.hasDbState then
        match validate_session c now token with
        | .ok (some (user, session)) =>
          let r2 :=
            if req.hasRedisState then
              match SessionCache.cache_user_session r1 now user session with
              | .ok r2 => r2
              | .error _ => r1
            else r1
          (.success user session, r2)
        | .ok none => (.failure .Unauthorized .Invalid, r1)
        | .error _ => (.failure .InternalServerError .DatabaseError, r1)
      else (.failure .InternalServerError .DatabaseError, r1)
  | none => (.failure .Unauthorized .Missing, r)

/-! ## Route commands and API responses
(`src/models/route_command.rs`, `src/models/response.rs`)

Only the `RouteCommand` variants the authentication flows construct are
modelled (`NavigateTo`, `ShowDialog`, `ProcessData`, `Sequence`); the
`data` payload of `ProcessData` is one of the JSON values those flows
actually serialize. -/

/-- `UserInfo` from `src/models/auth.rs`. -/
structure UserInfo where
  id : Nat
  username : String
  email : String
  full_name : Option String
  avatar_url : Option String
  is_admin : Bool
  is_guest : Bool
deriving DecidableEq, Repr

/-- `impl From<User> for UserInfo`. -/
def UserInfo.ofUser (u : User) : UserInfo :=
  ⟨u.id, u.username, u.email, u.full_name, u.avatar_url, u.is_admin, u.is_guest⟩

/-- `WxLoginResponse` from `src/models/wx_auth.rs`. -/
structure WxLoginResponse where
  user : UserInfo
  session_token : String
  expires_at : Int
deriving DecidableEq, Repr

/-- The serialized payloads carried by `ProcessData` in these flows. -/
inductive JsonData where
  | jnull
  | juser (ui : UserInfo)
  | jwx (w : WxLoginResponse)
deriving DecidableEq, Repr

inductive DialogType where
  | Alert
  | Confirm
  | Toast
deriving DecidableEq, Repr

mutual

inductive RouteCommand where
  | NavigateTo (path : String) (params : Option JsonData) (replace : Option Bool)
      (fallback_path : Option String)
  | ShowDialog (dialog_type : DialogType) (title : String) (content : String)
      (actions : List DialogAction)
  | ProcessData (data_type : String) (data : JsonData) (merge : Option Bool)
  | Sequence (commands : List RouteCommand) (stop_on_error : Option Bool)

inductive DialogAction where
  | mk (text : String) (action : Option RouteCommand)

end

/-- `RouteCommand::navigate_to`. -/
def RouteCommand.navigate_to (path : String) : RouteCommand :=
  .NavigateTo path none none none

/-- `RouteCommand::redirect_to`. -/
def RouteCommand.redirect_to (path : String) : RouteCommand :=
  .NavigateTo path none (some true) none

/-- `RouteCommand::alert`. -/
def RouteCommand.alert (title content : String) : RouteCommand :=
  .ShowDialog .Alert title content []

/-- `RouteCommand::toast`. -/
def RouteCommand.toast (message : String) : RouteCommand :=
  .ShowDialog .Toast "" message []

/-- `RouteCommand::confirm`. -/
def RouteCommand.confirm (title content : String)
    (confirm_action cancel_action : Option RouteCommand) : RouteCommand :=
  .ShowDialog .Confirm title content
    [.mk "取消" cancel_action, .mk "确定" confirm_action]

/-- `RouteCommand::process_data`. -/
def RouteCommand.process_data (data_type : String) (data : JsonData) :
    RouteCommand :=
  .ProcessData data_type data (some false)

/-- `RouteCommand::sequence`. -/
def RouteCommand.sequence (commands : List RouteCommand) : RouteCommand :=
  .Sequence commands (some true)

/-- `ApiResponse<T>` from `src/models/response.rs`. -/
structure ApiResponse (α : Type) where
  code : Int
  message : String
  data : Option α
  route_command : Option RouteCommand

/-- `ApiResponse::success_with_command`. -/
def ApiResponse.success_with_command (data : α) (command : RouteCommand) :
    ApiResponse α :=
  ⟨200, "success", some data, some command⟩

/-- `ApiResponse::command_only`. -/
def ApiResponse.command_only (command : RouteCommand) : ApiResponse α :=
  ⟨200, "success", none, some command⟩

/-- `ApiResponse::error_with_command`. -/
def ApiResponse.error_with_command (message : String) (command : RouteCommand) :
    ApiResponse α :=
  ⟨500, message, none, some command⟩

/-! ## The login use case (`src/use_cases/auth_use_case.rs`,
`src/use_cases/route_command_generator.rs`, `src/models/business_results.rs`) -/

/-- `AccountFlags`. -/
structure AccountFlags where
  is_vip : Bool
  is_new_user : Bool
  has_unread_notifications : Bool
  needs_profile_completion : Bool
  security_level : Nat
deriving DecidableEq, Repr

/-- `impl Default for AccountFlags`. -/
def AccountFlags.dflt : AccountFlags := ⟨false, false, false, false, 1⟩

/-- `LoginResult`. -/
structure LoginResult where
  user : User
  session : UserSession
  is_first_login : Bool
  has_pending_tasks : Bool
  pending_task_count : Nat
  last_login_at : Option Int
  needs_password_update : Bool
  account_flags : AccountFlags
deriving DecidableEq, Repr

/-- `LoginResult::new`. -/
def LoginResult.new (user : User) (session : UserSession) : LoginResult :=
  ⟨user, session, user.last_login_at.isNone, false, 0, user.last_login_at,
   false, AccountFlags.dflt⟩

/-- `LoginResult::with_pending_tasks`. -/
def LoginResult.with_pending_tasks (lr : LoginResult) (count : Nat) :
    LoginResult :=
  { lr with has_pending_tasks := count > 0, pending_task_count := count }

/-- `LoginResult::with_account_flags`. -/
def LoginResult.with_account_flags (lr : LoginResult) (flags : AccountFlags) :
    LoginResult :=
  { lr with account_flags := flags }

/-- `LoginResult::with_password_update_required`. -/
def LoginResult.with_password_update_required (lr : LoginResult)
    (required : Bool) : LoginResult :=
  { lr with needs_password_update := required }

/-- `UseCaseError` from `src/use_cases/mod.rs`. -/
inductive UseCaseError where
  | DatabaseError (msg : String)
  | ValidationError (msg : String)
  | AuthenticationError (msg : String)
  | BusinessLogicError (msg : String)
  | InternalError (msg : String)
deriving DecidableEq, Repr

/-- The `Display` rendering of a `UseCaseError`. -/
def UseCaseError.toDisplay : UseCaseError → String
  | .DatabaseError m => "Database error: " ++ m
  | .ValidationError m => "Validation error: " ++ m
  | .AuthenticationError m => "Authentication error: " ++ m
  | .BusinessLogicError m => "Business logic error: " ++ m
  | .InternalError m => "Internal error: " ++ m

/-- Trace events recorded by the model of the login flow; the only event of
interest is a bcrypt password verification. -/
inductive AuthEvent where
  | verifyPassword (username : String)
deriving DecidableEq, Repr

/-- The events emitted by one `authenticate_user` database call:
`PasswordHash::verify` runs exactly when the active-user row is found. -/
def authVerifyEvents (c : DbConn) (login_req : LoginRequest) : List AuthEvent :=
  if c.reachable ∧ (c.db.users.find? (fun u =>
      u.user.username = login_req.username ∧ u.user.is_active)).isSome then
    [.verifyPassword login_req.username]
  else []

/-- The fresh values consumed by one `create_user_session` call: the
generated session id and random token, and whether the insert succeeds. -/
structure SessionFresh where
  session_id : Nat
  session_token : String
  insertOk : Bool
deriving DecidableEq, Repr

/-- `create_user_session` (`src/database/auth.rs`): fresh token, expiry
`now + 7 days`; fails only on storage failure. -/
def create_user_session (c : DbConn) (fresh : SessionFresh) (now : Int)
    (user_id : Nat) (user_agent ip_address : Option String) :
    Except Unit UserSession :=
  if c.reachable ∧ fresh.insertOk then
    .ok ⟨fresh.session_id, user_id, fresh.session_token, user_agent,
      ip_address, now + 7 * 24 * 3600, now⟩
  else .error ()

/-- `AuthUseCase::build_account_flags`. -/
def build_account_flags (now : Int) (user : User) : AccountFlags :=
  let is_vip := user.is_admin
  let is_new_user := user.created_at > now - 7 * 24 * 3600
  let needs_profile_completion := user.email = "" ∨ user.full_name.isNone
  let security_level :=
    min (1 + (if user.full_name.isSome then 1 else 0) +
      (if user.email ≠ "" then 1 else 0)) 5
  ⟨is_vip, is_new_user, false, needs_profile_completion, security_level⟩

/-- `AuthUseCase::execute_login`: authenticate, re-check the active flag,
create a session, then assemble the `LoginResult` (pending tasks are 0 and
the password-update check is the first-admin-login rule). -/
def execute_login (c : DbConn) (vfy : String → String → Bool)
    (fresh : SessionFresh) (now : Int) (request : LoginRequest) :
    Except UseCaseError LoginResult :=
  match authenticate_user c vfy request with
  | .error _ => .error (.DatabaseError "db error")
  | .ok none => .error (.AuthenticationError "用户名或密码错误")
  | .ok (some user) =>
    if ¬ user.is_active then .error (.AuthenticationError "账户已被禁用")
    else
      match create_user_session c fresh now user.id none none with
      | .error _ => .error (.InternalError "会话创建失败")
      | .ok session =>
        let login_result := LoginResult.new user session
        let login_result := login_result.with_pending_tasks 0
        let login_result := login_result.with_account_flags
          (build_account_flags now user)
        let login_result := login_result.with_password_update_required
          (user.last_login_at.isNone ∧ user.username = "admin")
        .ok login_result

/-- `RouteCommandGenerator::generate_login_route_command`. -/
def generate_login_route_command (result : LoginResult) : RouteCommand :=
  let userData :=
    RouteCommand.process_data "user" (.juser (UserInfo.ofUser result.user))
  if result.is_first_login then
    RouteCommand.sequence [userData, RouteCommand.toast "欢迎使用系统！",
      RouteCommand.redirect_to "/pages/index/index"]
  else if result.needs_password_update then
    RouteCommand.confirm "密码安全提醒" "为了账户安全，建议您更新密码"
      (some (RouteCommand.redirect_to "/pages/index/index"))
      (some (RouteCommand.redirect_to "/pages/index/index"))
  else if result.has_pending_tasks then
    let message :=
      if result.pending_task_count = 1 then "您有1个待处理任务"
      else "您有" ++ toString result.pending_task_count ++ "个待处理任务"
    RouteCommand.sequence [userData,
      RouteCommand.confirm "待处理任务" (message ++ "，是否立即处理？")
        (some (RouteCommand.redirect_to "/pages/index/index"))
        (some (RouteCommand.redirect_to "/pages/index/index"))]
  else if result.account_flags.is_vip then
    RouteCommand.sequence [userData,
      RouteCommand.toast "尊敬的VIP用户，欢迎回来！",
      RouteCommand.redirect_to "/pages/index/index"]
  else if result.account_flags.is_new_user then
    RouteCommand.sequence [userData, RouteCommand.toast "欢迎新用户！",
      RouteCommand.redirect_to "/pages/index/index"]
  else if result.account_flags.needs_profile_completion then
    RouteCommand.sequence [userData,
      RouteCommand.confirm "完善个人信息" "为了获得更好的体验，请完善您的个人信息"
        (some (RouteCommand.redirect_to "/pages/index/index"))
        (some (RouteCommand.redirect_to "/pages/index/index"))]
  else
    RouteCommand.sequence [userData, RouteCommand.toast "登录成功",
      RouteCommand.redirect_to "/pages/index/index"]

/-- `RouteCommandGenerator::generate_error_route_command`. -/
def generate_error_route_command (error_message : String)
    (error_code : Option String) : RouteCommand :=
  match error_code with
  | some "AUTH_INVALID_CREDENTIALS" =>
    RouteCommand.alert "登录失败" "用户名或密码错误，请重新输入"
  | some "AUTH_ACCOUNT_LOCKED" =>
    RouteCommand.alert "账户已锁定" "您的账户已被锁定，请联系管理员"
  | some "AUTH_SESSION_EXPIRED" =>
    RouteCommand.sequence
      [RouteCommand.alert "会话已过期" "您的会话已过期，请重新登录",
       RouteCommand.process_data "user" .jnull,
       RouteCommand.redirect_to "/pages/login/index"]
  | some "NETWORK_ERROR" =>
    RouteCommand.alert "网络错误" "网络连接失败，请检查网络设置"
  | some "SERVER_MAINTENANCE" =>
    RouteCommand.alert "系统维护" "系统正在维护中，请稍后重试"
  | _ => RouteCommand.alert "操作失败" error_message

/-- `AuthUseCase::handle_login`: run the login use case and map the result
to a route command (the use case itself never returns `Err`). -/
def handle_login (c : DbConn) (vfy : String → String → Bool)
    (fresh : SessionFresh) (now : Int) (request : LoginRequest) :
    Except UseCaseError RouteCommand :=
  match execute_login c vfy fresh now request with
  | .ok login_result => .ok (generate_login_route_command login_result)
  | .error e =>
    let error_code :=
      match e with
      | .AuthenticationError _ => some "AUTH_INVALID_CREDENTIALS"
      | .DatabaseError _ => some "DATABASE_ERROR"
      | _ => none
    .ok (generate_error_route_command e.toDisplay error_code)

/-! ## The login route handler (`src/routes/auth.rs`) -/

/-- `LoginResponse` from `src/models/auth.rs`. -/
structure LoginResponse where
  user : UserInfo
  session_token : String
  expires_at : Int
deriving DecidableEq, Repr

/-- Is this command a `ProcessData` with `data_type == "user"`? -/
def isUserProcessData : RouteCommand → Bool
  | .ProcessData data_type _ _ => data_type = "user"
  | _ => false

/-- The login handler's success test: a `Sequence` containing a
`ProcessData` command for `"user"` data. -/
def isLoginSuccessShape : RouteCommand → Bool
  | .Sequence commands _ => commands.any isUserProcessData
  | _ => false

/-- Is this command a `Sequence` at all? -/
def isSequenceShape : RouteCommand → Bool
  | .Sequence _ _ => true
  | _ => false

/-- Everything the login handler draws on: the cache and database states,
the clock, the bcrypt verifier, the fresh session values for the use-case
session and the backward-compatibility session, and the request transport
metadata. -/
structure LoginDeps where
  redis : Redis
  conn : DbConn
  now : Int
  vfy : String → String → Bool
  fresh1 : SessionFresh
  fresh2 : SessionFresh
  user_agent : String
  ip_address : String

/-- The `login` route handler: lockout check first (its cache read never
errors), then the login use case; on a success-shaped command the user is
re-authenticated, a session is created, the cookie is set and the caches
are updated best-effort and the failure counter cleared; otherwise a
non-`Sequence` command records a login failure. Returns the response, the
final cache state, and the trace of password-verification events. -/
def login (d : LoginDeps) (login_req : LoginRequest) :
    ApiResponse LoginResponse × Redis × List AuthEvent :=
  if UserCache.is_account_locked d.redis d.now login_req.username 5 then
    (ApiResponse.error_with_command "账户已被锁定，请稍后再试"
      (RouteCommand.alert "账户锁定" "由于多次登录失败，您的账户已被临时锁定，请稍后再试"),
     d.redis, [])
  else
    let ev1 := authVerifyEvents d.conn login_req
    match handle_login d.conn d.vfy d.fresh1 d.now login_req with
    | .error _ =>
      let r1 :=
        match UserCache.record_login_failure d.redis d.now login_req.username with
        | .ok (r1, _) => r1
        | .error _ => d.redis
      (ApiResponse.command_only (RouteCommand.alert "登录失败" "登录过程中发生错误，请稍后重试"),
       r1, ev1)
    | .ok route_command =>
      let fallthrough : ApiResponse LoginResponse × Redis × List AuthEvent :=
        if ¬ isSequenceShape route_command then
          let r1 :=
            match UserCache.record_login_failure d.redis d.now login_req.username with
            | .ok (r1, _) => r1
            | .error _ => d.redis
          (ApiResponse.command_only route_command, r1, ev1)
        else (ApiResponse.command_only route_command, d.redis, ev1)
      if isLoginSuccessShape route_command then
        match authenticate_user d.conn d.vfy login_req with
        | .ok (some user) =>
          let ev2 := authVerifyEvents d.conn login_req
          match create_user_session d.conn d.fresh2 d.now user.id
              (some d.user_agent) (some d.ip_address) with
          | .ok session =>
            let r1 :=
              match UserCache.cache_user d.redis d.now user with
              | .ok r1 => r1
              | .error _ => d.redis
            let r2 :=
              match UserCache.cache_username_mapping r1 d.now user.username user.id with
              | .ok r2 => r2
              | .error _ => r1
            let r3 :=
              match SessionCache.cache_user_session r2 d.now user session with
              | .ok r3 => r3
              | .error _ => r2
            let r4 := UserCache.clear_login_failures r3 d.now login_req.username
            (ApiResponse.success_with_command
              ⟨UserInfo.ofUser user, session.session_token, session.expires_at⟩
              route_command, r4, ev1 ++ ev2)
          | .error _ => (fallthrough.1, fallthrough.2.1, ev1 ++ ev2)
        | .ok none => (fallthrough.1, fallthrough.2.1, ev1 ++ authVerifyEvents d.conn login_req)
        | .error _ => fallthrough
      else fallthrough

/-! ## The WeChat login use case (`src/use_cases/wx_auth_use_case.rs`,
`src/database/wx_auth.rs`, `src/models/wx_auth.rs`) -/

/-- `WxUser` from `src/models/wx_auth.rs` (field-for-field the same shape
as `User`). -/
structure WxUser where
  id : Nat
  username : String
  email : String
  full_name : Option String
  avatar_url : Option String
  is_active : Bool
  is_admin : Bool
  is_guest : Bool
  wx_openid : Option String
  wx_unionid : Option String
  wx_session_key : Option String
  last_login_at : Option Int
  created_at : Int
  updated_at : Int
deriving DecidableEq, Repr

/-- `impl From<WxUser> for User`. -/
def WxUser.toUser (w : WxUser) : User :=
  ⟨w.id, w.username, w.email, w.full_name, w.avatar_url, w.is_active,
   w.is_admin, w.is_guest, w.wx_openid, w.wx_unionid, w.wx_session_key,
   w.last_login_at, w.created_at, w.updated_at⟩

/-- `Code2SessionResponse` from `src/models/wx_auth.rs`. -/
structure Code2SessionResponse where
  openid : String
  session_key : String
  unionid : Option String
  errcode : Option Int
  errmsg : Option String
deriving DecidableEq, Repr

/-- `WxLoginRequest` from `src/models/wx_auth.rs`. -/
structure WxLoginRequest where
  code : String
  encrypted_data : Option String
  iv : Option String
  signature : Option String
  raw_data : Option String
deriving DecidableEq, Repr

/-- The external collaborators of `WxAuthUseCase::handle_wx_login`: the
outcome of the WeChat `code2session` HTTP exchange and of the database
reads/writes it performs, plus the session-creation inputs and the
configured home route. -/
structure WxEnv where
  code2sessionResult : Except String Code2SessionResponse
  findUserByOpenid : Except Unit (Option WxUser)
  createWxUserResult : Except Unit WxUser
  updateProfileOk : Bool
  conn : DbConn
  fresh : SessionFresh
  now : Int
  homeRoute : Option String

/-- `WxAuthUseCase::find_or_create_wx_user`: look up by openid (updating
the stored session key best-effort), else insert a fresh guest user. -/
def find_or_create_wx_user (env : WxEnv) (session_key : String) :
    Except String WxUser :=
  match env.findUserByOpenid with
  | .ok (some user) => .ok { user with wx_session_key := some session_key }
  | .ok none =>
    match env.createWxUserResult with
    | .ok user => .ok user
    | .error _ => .error "创建微信用户失败"
  | .error _ => .error "查找用户失败"

/-- `WxAuthUseCase::process_encrypted_user_info`: signature check, then
decryption, then the watermark check — whose mismatch is only logged —
then the profile update in the database and on the in-memory user. -/
def process_encrypted_user_info (env : WxEnv) (wx_user : WxUser)
    (encrypted_data iv signature raw_data session_key : String) :
    Except String WxUser :=
  match WxCrypto.verify_signature raw_data session_key signature with
  | .error e => .error e
  | .ok false => .error "数据签名验证失败"
  | .ok true =>
    match WxCrypto.decrypt_user_info encrypted_data session_key iv with
    | .error e => .error e
    | .ok decrypted_user_info =>
      match WxCrypto.verify_watermark decrypted_user_info "wx2078fa60851884ca" with
      | .error e => .error e
      | .ok _watermark_ok =>
        if env.updateProfileOk then
          .ok { wx_user with
            full_name := some decrypted_user_info.nick_name,
            avatar_url := some decrypted_user_info.avatar_url }
        else .error "更新用户信息失败"

/-- `WxAuthUseCase::handle_wx_login`: exchange the code, find or create the
user, optionally run the enrichment step — logging and continuing on its
failure — create the session, and emit the success sequence. Every failure
is reported as an `Ok` alert command; the function never returns `Err`. -/
def handle_wx_login (env : WxEnv) (wx_login_req : WxLoginRequest) :
    Except String RouteCommand :=
  match env.code2sessionResult with
  | .error _ => .ok (RouteCommand.alert "登录失败" "微信授权失败，请重试")
  | .ok wx_response =>
    match find_or_create_wx_user env wx_response.session_key with
    | .error _ => .ok (RouteCommand.alert "登录失败" "用户信息处理失败")
    | .ok wx_user0 =>
      let wx_user :=
        match wx_login_req.encrypted_data, wx_login_req.iv,
            wx_login_req.signature, wx_login_req.raw_data with
        | some encrypted_data, some iv, some signature, some raw_data =>
          match process_encrypted_user_info env wx_user0 encrypted_data iv
              signature raw_data wx_response.session_key with
          | .ok updated => updated
          | .error _ => wx_user0
        | _, _, _, _ => wx_user0
      match create_user_session env.conn env.fresh env.now wx_user.id
          (some "WeChat Mini Program") none with
      | .error _ => .ok (RouteCommand.alert "登录失败" "会话创建失败")
      | .ok session =>
        let user_info := UserInfo.ofUser (WxUser.toUser wx_user)
        let wx_login_response : WxLoginResponse :=
          ⟨user_info, session.session_token, session.expires_at⟩
        let user_data_command :=
          RouteCommand.ProcessData "user" (.jwx wx_login_response) (some false)
        let home_route := env.homeRoute.getD "/pages/home/home"
        let navigate_command :=
          RouteCommand.NavigateTo home_route none (some true)
            (some "/pages/home/home")
        .ok (RouteCommand.Sequence [user_data_command, navigate_command]
          (some true))

/-! ## `create_wx_user` name synthesis (`src/database/wx_auth.rs`)

`create_wx_user` computes `format!("wx_{}", &openid[..8])` and
`format!("{}@wx.temp", &openid[..10])`. A Rust byte-range slice of a `str`
panics unless the end index is a character boundary, so the synthesis is
modelled as a fallible function whose error is the panic. -/

/-- Rust `str::is_char_boundary` on the UTF-8 bytes: true at the end of the
string, false past it, and otherwise true exactly at non-continuation
bytes. -/
def isCharBoundaryM (bs : List Nat) (i : Nat) : Bool :=
  if i = bs.length then true
  else
    match bs[i]? with
    | some b => b < 128 ∨ 192 ≤ b
    | none => false

/-- Rust `&s[..n]` on the UTF-8 bytes: panics (`error`) unless `n` is a
character boundary. -/
def byteSliceTo (bs : List Nat) (n : Nat) : Except Unit (List Nat) :=
  if isCharBoundaryM bs n then .ok (bs.take n) else .error ()

/-- The username/email synthesis of `create_wx_user`, at the byte level:
`"wx_" ++ openid[..8]` and `openid[..10] ++ "@wx.temp"`, with the panic of
either slice surfaced as `error`. -/
def create_wx_user_names (openid : String) : Except Unit (List Nat × List Nat) :=
  let ob := strBytes openid
  match byteSliceTo ob 8 with
  | .error e => .error e
  | .ok s8 =>
    match byteSliceTo ob 10 with
    | .error e => .error e
    | .ok s10 => .ok (strBytes "wx_" ++ s8, s10 ++ strBytes "@wx.temp")

/-! ## Supporting lemmas -/

/-- `String.data` distributes over append. -/
theorem strData_append (s t : String) : (s ++ t).data = s.data ++ t.data := rfl

/-- Hex digits are lowercase already. -/
theorem hexDigit_toLower (n : Nat) : (hexDigit n).toLower = hexDigit n := by
  by_cases h : n < 16
  · interval_cases n <;> decide
  · unfold hexDigit
    rw [if_neg (by omega), if_neg h]
    decide

/-- The `hex` crate output is invariant under lowercasing. -/
theorem lowerCL_hexEncode (bs : List Nat) : lowerCL (hexEncode bs) = hexEncode bs := by
  unfold lowerCL hexEncode
  induction bs with
  | nil => rfl
  | cons b bs ih =>
    simp only [List.flatMap_cons, List.map_append] at *
    rw [ih]
    simp [hexDigit_toLower]

/-! ## Claim C10 -/

/-- C10: `create_wx_user` synthesizes the username as `"wx_"` plus the
first 8 bytes of the openid and the email as the first 10 bytes plus
`"@wx.temp"`; the synthesis is defined exactly when byte offsets 8 and 10
are character boundaries of the openid (which forces at least 10 bytes),
and every openid violating that precondition makes the byte-range slicing
panic instead of returning an error. -/
theorem claim_C10_create_wx_user_slicing (openid : String) :
    (create_wx_user_names openid =
        .ok (strBytes "wx_" ++ (strBytes openid).take 8,
             (strBytes openid).take 10 ++ strBytes "@wx.temp") ∨
      create_wx_user_names openid = .error ()) ∧
    (create_wx_user_names openid ≠ .error () ↔
      (isCharBoundaryM (strBytes openid) 8 = true ∧
       isCharBoundaryM (strBytes openid) 10 = true)) ∧
    (isCharBoundaryM (strBytes openid) 10 = true →
      10 ≤ (strBytes openid).length) := by
  refine ⟨?_, ?_, ?_⟩
  · unfold create_wx_user_names byteSliceTo
    by_cases h8 : isCharBoundaryM (strBytes openid) 8 = true
    · by_cases h10 : isCharBoundaryM (strBytes openid) 10 = true
      · left; simp [h8, h10]
      · right; simp [h8, h10]
    · right; simp [h8]
  · unfold create_wx_user_names byteSliceTo
    by_cases h8 : isCharBoundaryM (strBytes openid) 8 = true
    · by_cases h10 : isCharBoundaryM (strBytes openid) 10 = true
      · simp [h8, h10]
      · simp [h8, h10]
    · simp [h8]
  · intro h10
    unfold isCharBoundaryM at h10
    by_cases he : 10 = (strBytes openid).length
    · omega
    · simp only [he, if_false] at h10
      rcases hb : (strBytes openid)[10]? with _ | b
      · rw [hb] at h10; simp at h10
      · have hlt : 10 < (strBytes openid).length := by
          by_contra hc
          rw [List.getElem?_eq_none (by omega)] at hb
          cases hb
        omega

/-- Witness for C10: a 12-byte ASCII openid satisfies the precondition and
the synthesis succeeds. -/
theorem claim_C10_witness :
    10 ≤ (strBytes "oABCDEFGHIJK").length ∧
    create_wx_user_names "oABCDEFGHIJK" ≠ .error () := by
  constructor
  · exact (claim_C10_create_wx_user_slicing "oABCDEFGHIJK").2.2 (by decide)
  · exact ((claim_C10_create_wx_user_slicing "oABCDEFGHIJK").2.1).mpr
      (by constructor <;> decide)

/-! ## Claim C6 -/

/-- C6: `verify_signature` never errors, and returns `Ok(true)` exactly
when the (already lowercase) hex encoding of `SHA1(raw ‖ secret)` equals
the supplied signature compared case-insensitively (both sides lowercased).
Being a plain function of its three string arguments, the model is
deterministic and side-effect free by construction. -/
theorem claim_C6_verify_signature (raw secret sig : String) :
    (∃ b, WxCrypto.verify_signature raw secret sig = .ok b) ∧
    (WxCrypto.verify_signature raw secret sig = .ok true ↔
      lowerCL sig.data = hexEncode (sha1 (strBytes raw ++ strBytes secret))) := by
  constructor
  · exact ⟨_, rfl⟩
  · unfold WxCrypto.verify_signature
    have hb : strBytes (raw ++ secret) = strBytes raw ++ strBytes secret := by
      unfold strBytes
      rw [strData_append, List.flatMap_append]
    simp only [Except.ok.injEq, decide_eq_true_eq]
    rw [hb, lowerCL_hexEncode]
    exact ⟨fun h => h.symm, fun h => h.symm⟩

set_option maxRecDepth 8192 in
/-- Witness for C6 at a concrete vector: the signature of `"x"` under the
session key `"AAECAwQFBgcICQoLDA0ODw=="`, uppercased, still verifies. -/
theorem claim_C6_witness :
    WxCrypto.verify_signature "x" "AAECAwQFBgcICQoLDA0ODw=="
      "3A63A2F58BE2F2693E5CF398FAE807C0B7F9F8BD" = .ok true :=
  (claim_C6_verify_signature "x" "AAECAwQFBgcICQoLDA0ODw=="
    "3A63A2F58BE2F2693E5CF398FAE807C0B7F9F8BD").2.mpr (by decide)

/-! ## Claim C7 -/

/-- C7: both decryption entry points are total over all string inputs —
they are plain functions into `Except`, so no input can fault — and every
failure mode named by the specification returns the corresponding
structured error: malformed base64 in any of the three inputs, a key or IV
that does not decode to exactly 16 bytes, a padding/decryption failure,
non-UTF-8 plaintext, and plaintext that does not match the expected JSON
schema; when every stage succeeds, the parsed value is returned. -/
theorem claim_C7_decrypt_total (e k i : String) :
    (base64Decode e = none →
      WxCrypto.decrypt_user_info e k i = .error "Base64解码失败" ∧
      WxCrypto.decrypt_user_profile e k i = .error "Base64解码失败") ∧
    (base64Decode e ≠ none → base64Decode k = none →
      WxCrypto.decrypt_user_info e k i = .error "Session key解码失败" ∧
      WxCrypto.decrypt_user_profile e k i = .error "Session key解码失败") ∧
    (base64Decode e ≠ none → base64Decode k ≠ none → base64Decode i = none →
      WxCrypto.decrypt_user_info e k i = .error "IV解码失败" ∧
      WxCrypto.decrypt_user_profile e k i = .error "IV解码失败") ∧
    (∀ eb kb ib, base64Decode e = some eb → base64Decode k = some kb →
      base64Decode i = some ib → kb.length ≠ 16 →
      WxCrypto.decrypt_user_info e k i =
        .error ("Session key长度错误，期望16字节，实际" ++ toString kb.length ++ "字节") ∧
      WxCrypto.decrypt_user_profile e k i =
        .error ("Session key长度错误，期望16字节，实际" ++ toString kb.length ++ "字节")) ∧
    (∀ eb kb ib, base64Decode e = some eb → base64Decode k = some kb →
      base64Decode i = some ib → kb.length = 16 → ib.length ≠ 16 →
      WxCrypto.decrypt_user_info e k i =
        .error ("IV长度错误，期望16字节，实际" ++ toString ib.length ++ "字节") ∧
      WxCrypto.decrypt_user_profile e k i =
        .error ("IV长度错误，期望16字节，实际" ++ toString ib.length ++ "字节")) ∧
    (∀ eb kb ib, base64Decode e = some eb → base64Decode k = some kb →
      base64Decode i = some ib → kb.length = 16 → ib.length = 16 →
      decryptPadded kb ib eb = none →
      WxCrypto.decrypt_user_info e k i = .error "解密失败" ∧
      WxCrypto.decrypt_user_profile e k i = .error "解密失败") ∧
    (∀ eb kb ib pt, base64Decode e = some eb → base64Decode k = some kb →
      base64Decode i = some ib → kb.length = 16 → ib.length = 16 →
      decryptPadded kb ib eb = some pt → utf8Decode pt = none →
      WxCrypto.decrypt_user_info e k i = .error "UTF-8转换失败" ∧
      WxCrypto.decrypt_user_profile e k i = .error "UTF-8转换失败") ∧
    (∀ eb kb ib pt cs, base64Decode e = some eb → base64Decode k = some kb →
      base64Decode i = some ib → kb.length = 16 → ib.length = 16 →
      decryptPadded kb ib eb = some pt → utf8Decode pt = some cs →
      ((jsonOfChars cs).bind decryptedUserInfoFromJson = none →
        WxCrypto.decrypt_user_info e k i = .error "JSON解析失败") ∧
      (∀ info, (jsonOfChars cs).bind decryptedUserInfoFromJson = some info →
        WxCrypto.decrypt_user_info e k i = .ok info) ∧
      ((jsonOfChars cs).bind userProfileInfoFromJson = none →
        WxCrypto.decrypt_user_profile e k i = .error "JSON解析失败") ∧
      (∀ info, (jsonOfChars cs).bind userProfileInfoFromJson = some info →
        WxCrypto.decrypt_user_profile e k i = .ok info)) := by
  unfold WxCrypto.decrypt_user_info WxCrypto.decrypt_user_profile
  refine ⟨?_, ?_, ?_, ?_, ?_, ?_, ?_, ?_⟩
  · intro h1; rw [h1]; exact ⟨rfl, rfl⟩
  · intro h1 h2
    rcases he : base64Decode e with _ | eb
    · exact absurd he h1
    · rw [h2]; exact ⟨rfl, rfl⟩
  · intro h1 h2 h3
    rcases he : base64Decode e with _ | eb
    · exact absurd he h1
    rcases hk : base64Decode k with _ | kb
    · exact absurd hk h2
    rw [h3]; exact ⟨rfl, rfl⟩
  · intro eb kb ib he hk hi hlen
    rw [he, hk, hi]
    simp [hlen]
  · intro eb kb ib he hk hi hklen hilen
    rw [he, hk, hi]
    simp [hklen, hilen]
  · intro eb kb ib he hk hi hklen hilen hpad
    rw [he, hk, hi]
    simp [hklen, hilen, hpad]
  · intro eb kb ib pt he hk hi hklen hilen hpad hutf
    rw [he, hk, hi]
    simp [hklen, hilen, hpad, hutf]
  · intro eb kb ib pt cs he hk hi hklen hilen hpad hutf
    rw [he, hk, hi]
    refine ⟨?_, ?_, ?_, ?_⟩
    · intro hj; simp [hklen, hilen, hpad, hutf, hj]
    · intro info hj; simp [hklen, hilen, hpad, hutf, hj]
    · intro hj; simp [hklen, hilen, hpad, hutf, hj]
    · intro info hj; simp [hklen, hilen, hpad, hutf, hj]

/-- Total base64 decoding helper used to name the intermediate byte lists
in concrete instantiations. -/
def b64D (s : String) : List Nat := (base64Decode s).getD []

set_option maxRecDepth 8192 in
/-- Witness for C7: the length-mismatch, padding-failure, UTF-8-failure and
JSON-failure conjuncts at concrete inputs, and one fully successful
profile decryption. -/
theorem claim_C7_witness :
    WxCrypto.decrypt_user_info "1omnKeRsm/KiUP0WsMouPA==" "AAAAAAAAAAA=" "EBESExQVFhcYGRobHB0eHw==" =
      .error "Session key长度错误，期望16字节，实际8字节" ∧
    WxCrypto.decrypt_user_info "AAAAAAAAAAAAAAAAAAAAAA==" "AAECAwQFBgcICQoLDA0ODw==" "EBESExQVFhcYGRobHB0eHw==" =
      .error "解密失败" ∧
    WxCrypto.decrypt_user_info "H6l0eaS8Ufrp0VuD8G45tQ==" "AAECAwQFBgcICQoLDA0ODw==" "EBESExQVFhcYGRobHB0eHw==" =
      .error "UTF-8转换失败" ∧
    WxCrypto.decrypt_user_info "1omnKeRsm/KiUP0WsMouPA==" "AAECAwQFBgcICQoLDA0ODw==" "EBESExQVFhcYGRobHB0eHw==" =
      .error "JSON解析失败" ∧
    WxCrypto.decrypt_user_profile "RPTBSe2nukGsRO930YnzUA16Y5T/XFatWfGB7wV57Jyilbe8A93AFfQ6MhyRlWT1"
      "AAECAwQFBgcICQoLDA0ODw==" "EBESExQVFhcYGRobHB0eHw==" =
      .ok ⟨"Bob", "http://a/b", 0, "", "", "", "", false⟩ := by
  refine ⟨?_, ?_, ?_, ?_, ?_⟩
  · exact ((claim_C7_decrypt_total "1omnKeRsm/KiUP0WsMouPA==" "AAAAAAAAAAA="
      "EBESExQVFhcYGRobHB0eHw==").2.2.2.1
      (b64D "1omnKeRsm/KiUP0WsMouPA==") (b64D "AAAAAAAAAAA=")
      (b64D "EBESExQVFhcYGRobHB0eHw==")
      (by decide) (by decide) (by decide) (by decide)).1
  · exact ((claim_C7_decrypt_total "AAAAAAAAAAAAAAAAAAAAAA==" "AAECAwQFBgcICQoLDA0ODw=="
      "EBESExQVFhcYGRobHB0eHw==").2.2.2.2.2.1
      (b64D "AAAAAAAAAAAAAAAAAAAAAA==") (b64D "AAECAwQFBgcICQoLDA0ODw==")
      (b64D "EBESExQVFhcYGRobHB0eHw==")
      (by decide) (by decide) (by decide) (by decide) (by decide) (by decide)).1
  · exact ((claim_C7_decrypt_total "H6l0eaS8Ufrp0VuD8G45tQ==" "AAECAwQFBgcICQoLDA0ODw=="
      "EBESExQVFhcYGRobHB0eHw==").2.2.2.2.2.2.1
      (b64D "H6l0eaS8Ufrp0VuD8G45tQ==") (b64D "AAECAwQFBgcICQoLDA0ODw==")
      (b64D "EBESExQVFhcYGRobHB0eHw==")
      ((decryptPadded (b64D "AAECAwQFBgcICQoLDA0ODw==") (b64D "EBESExQVFhcYGRobHB0eHw==")
        (b64D "H6l0eaS8Ufrp0VuD8G45tQ==")).getD [])
      (by decide) (by decide) (by decide) (by decide) (by decide) (by decide) (by decide)).1
  · exact ((claim_C7_decrypt_total "1omnKeRsm/KiUP0WsMouPA==" "AAECAwQFBgcICQoLDA0ODw=="
      "EBESExQVFhcYGRobHB0eHw==").2.2.2.2.2.2.2
      (b64D "1omnKeRsm/KiUP0WsMouPA==") (b64D "AAECAwQFBgcICQoLDA0ODw==")
      (b64D "EBESExQVFhcYGRobHB0eHw==")
      ((decryptPadded (b64D "AAECAwQFBgcICQoLDA0ODw==") (b64D "EBESExQVFhcYGRobHB0eHw==")
        (b64D "1omnKeRsm/KiUP0WsMouPA==")).getD [])
      ((utf8Decode ((decryptPadded (b64D "AAECAwQFBgcICQoLDA0ODw==")
        (b64D "EBESExQVFhcYGRobHB0eHw==") (b64D "1omnKeRsm/KiUP0WsMouPA==")).getD [])).getD [])
      (by decide) (by decide) (by decide) (by decide) (by decide) (by decide) (by decide)).1
      (by decide)
  · exact ((claim_C7_decrypt_total "RPTBSe2nukGsRO930YnzUA16Y5T/XFatWfGB7wV57Jyilbe8A93AFfQ6MhyRlWT1"
      "AAECAwQFBgcICQoLDA0ODw==" "EBESExQVFhcYGRobHB0eHw==").2.2.2.2.2.2.2
      (b64D "RPTBSe2nukGsRO930YnzUA16Y5T/XFatWfGB7wV57Jyilbe8A93AFfQ6MhyRlWT1")
      (b64D "AAECAwQFBgcICQoLDA0ODw==") (b64D "EBESExQVFhcYGRobHB0eHw==")
      ((decryptPadded (b64D "AAECAwQFBgcICQoLDA0ODw==") (b64D "EBESExQVFhcYGRobHB0eHw==")
        (b64D "RPTBSe2nukGsRO930YnzUA16Y5T/XFatWfGB7wV57Jyilbe8A93AFfQ6MhyRlWT1")).getD [])
      ((utf8Decode ((decryptPadded (b64D "AAECAwQFBgcICQoLDA0ODw==")
        (b64D "EBESExQVFhcYGRobHB0eHw==")
        (b64D "RPTBSe2nukGsRO930YnzUA16Y5T/XFatWfGB7wV57Jyilbe8A93AFfQ6MhyRlWT1")).getD [])).getD [])
      (by decide) (by decide) (by decide) (by decide) (by decide) (by decide) (by decide)).2.2.2
      ⟨"Bob", "http://a/b", 0, "", "", "", "", false⟩ (by decide)

/-! ## Store lemmas -/

/-- A removed key is not found. -/
theorem find?_removeKey_self (l : List (String × CacheVal × Option Int)) (k : String) :
    (removeKey l k).find? (fun e => e.1 = k) = none := by
  induction l with
  | nil => rfl
  | cons e l ih =>
    unfold removeKey at *
    by_cases he : e.1 = k
    · simpa [he] using ih
    · simpa [List.find?_cons, he] using ih

/-- Removing a different key does not change a lookup. -/
theorem find?_removeKey_ne (l : List (String × CacheVal × Option Int))
    (k k2 : String) (h : k ≠ k2) :
    (removeKey l k2).find? (fun e => e.1 = k) = l.find? (fun e => e.1 = k) := by
  induction l with
  | nil => rfl
  | cons e l ih =>
    by_cases he : e.1 = k2
    · have hek : ¬ (e.1 = k) := fun hh => h (hh.symm.trans he)
      rw [show removeKey (e :: l) k2 = removeKey l k2 by simp [removeKey, he]]
      rw [ih, List.find?_cons_of_neg _ (by simpa using hek)]
    · rw [show removeKey (e :: l) k2 = e :: removeKey l k2 by simp [removeKey, he]]
      by_cases hk : e.1 = k
      · rw [List.find?_cons_of_pos _ (by simpa using hk),
          List.find?_cons_of_pos _ (by simpa using hk)]
      · rw [List.find?_cons_of_neg _ (by simpa using hk),
          List.find?_cons_of_neg _ (by simpa using hk)]
        exact ih

/-- Removing a key twice is the same as once. -/
theorem removeKey_idem (l : List (String × CacheVal × Option Int)) (k : String) :
    removeKey (removeKey l k) k = removeKey l k := by
  unfold removeKey
  rw [List.filter_filter]
  simp

/-- Removing the head key drops the head. -/
theorem removeKey_cons_self (k : String) (v : CacheVal) (exp : Option Int)
    (l : List (String × CacheVal × Option Int)) :
    removeKey ((k, v, exp) :: l) k = removeKey l k := by
  simp [removeKey]

/-! ## Claim C4 -/

/-- Can `INCR` act on this value? (an integer, or nothing). -/
def isCounterVal : Option CacheVal → Bool
  | some (.vInt _) => true
  | none => true
  | _ => false

/-- Two cache states with the same failure oracles. -/
def sameOracles (a b : Redis) : Prop :=
  a.failGet = b.failGet ∧ a.failSet = b.failSet ∧ a.failDel = b.failDel ∧
  a.failIncr = b.failIncr ∧ a.failExpire = b.failExpire ∧ a.failKeys = b.failKeys

/-- Drive `record_login_failure` at each of the given times in order,
keeping the state of a successful call. -/
def recordFailures (r : Redis) (times : List Int) (u : String) : Redis :=
  times.foldl
    (fun acc t =>
      match UserCache.record_login_failure acc t u with
      | .ok (r1, _) => r1
      | .error _ => acc)
    r

/-- Each time is at or after the previous one and strictly inside the
sliding 15-minute window that the previous failure (re)opened. -/
def slidingChainB : Int → List Int → Bool
  | _, [] => true
  | prev, t :: ts => (decide (prev ≤ t) && decide (t < prev + 900)) && slidingChainB t ts

/-- The live counter value `record_login_failure` starts from. -/
def liveCount (r : Redis) (now : Int) (u : String) : Int :=
  match lookupEntry r now (cacheKey "login_failures" u) with
  | some (.vInt n) => n
  | _ => 0

/-- Characterization of one `record_login_failure` step when the increment
and expire backends work and the key holds an integer entry or nothing:
the call returns the previous live count plus one, and the store afterwards
holds exactly one counter entry whose TTL restarts 900 seconds from now. -/
theorem record_login_failure_eq (r : Redis) (now : Int) (u : String)
    (hIncr : r.failIncr (cacheKey "login_failures" u) = false)
    (hExp : r.failExpire (cacheKey "login_failures" u) = false)
    (hVal : isCounterVal (lookupEntry r now (cacheKey "login_failures" u)) = true) :
    UserCache.record_login_failure r now u =
      .ok ({ r with entries :=
          (cacheKey "login_failures" u, .vInt (liveCount r now u + 1),
            some (now + 900)) :: removeKey r.entries (cacheKey "login_failures" u) },
        liveCount r now u + 1) := by
  rcases hf : r.entries.find? (fun e => e.1 = cacheKey "login_failures" u) with _ | e
  · have hlc : liveCount r now u = 0 := by
      unfold liveCount lookupEntry
      rw [hf]
    rw [hlc]
    simp only [UserCache.record_login_failure, redisIncr, redisExpire, hIncr, hExp,
      Bool.false_eq_true, if_false, hf]
    rw [List.find?_cons_of_pos _ (by simp)]
    simp only [liveEntry, removeKey_cons_self, removeKey_idem]
    rfl
  · have hVal' : isCounterVal (if liveEntry now e = true then some e.2.1 else none) = true := by
      unfold lookupEntry at hVal
      rw [hf] at hVal
      exact hVal
    by_cases hl : liveEntry now e = true
    · simp only [hl, if_true] at hVal'
      obtain ⟨k1, v1, e1⟩ := e
      rcases v1 with u1 | s1 | us1 | n1 | s1
      · exact absurd hVal' (by simp [isCounterVal])
      · exact absurd hVal' (by simp [isCounterVal])
      · exact absurd hVal' (by simp [isCounterVal])
      · have hlc : liveCount r now u = n1 := by
          unfold liveCount lookupEntry
          rw [hf]
          simp [hl]
        rw [hlc]
        simp only [UserCache.record_login_failure, redisIncr, redisExpire, hIncr, hExp,
          Bool.false_eq_true, if_false, hf, hl, if_true]
        rw [List.find?_cons_of_pos _ (by simp)]
        have hl2 : liveEntry now (cacheKey "login_failures" u, CacheVal.vInt (n1 + 1), e1) = true := by
          unfold liveEntry at hl ⊢
          exact hl
        simp only [hl2, if_true, removeKey_cons_self, removeKey_idem]
        rfl
      · exact absurd hVal' (by simp [isCounterVal])
    · have hlc : liveCount r now u = 0 := by
        unfold liveCount lookupEntry
        rw [hf]
        simp [hl]
      rw [hlc]
      simp only [UserCache.record_login_failure, redisIncr, redisExpire, hIncr, hExp,
        Bool.false_eq_true, if_false, hf]
      rw [if_neg hl]
      simp only [redisExpire, hExp, Bool.false_eq_true, if_false]
      rw [List.find?_cons_of_pos _ (by simp)]
      simp only [liveEntry, removeKey_cons_self, removeKey_idem]
      rfl

/-- Reading the counter after a record: within the freshly opened window it
is the stored count, after the window it reads 0. -/
theorem get_login_failures_after (r1 : Redis) (now : Int) (u : String) (c : Int)
    (hGet : r1.failGet (cacheKey "login_failures" u) = false)
    (hfind : r1.entries.find? (fun e => e.1 = cacheKey "login_failures" u) =
      some (cacheKey "login_failures" u, .vInt c, some (now + 900))) :
    ∀ t, UserCache.get_login_failures r1 t u = if t < now + 900 then c else 0 := by
  intro t
  unfold UserCache.get_login_failures redisGet lookupEntry
  simp only [hGet, Bool.false_eq_true, if_false, hfind, liveEntry]
  by_cases h : t < now + 900
  · simp [h]
  · simp [h]

/-- Folding `record_login_failure` along a sliding chain of times adds the
chain length to the counter and leaves its TTL anchored at the last
failure. -/
theorem recordFailures_chain (u : String) :
    ∀ (ts : List Int) (r : Redis) (prev c : Int),
    r.failIncr (cacheKey "login_failures" u) = false →
    r.failExpire (cacheKey "login_failures" u) = false →
    r.entries.find? (fun e => e.1 = cacheKey "login_failures" u) =
      some (cacheKey "login_failures" u, .vInt c, some (prev + 900)) →
    slidingChainB prev ts = true →
    (recordFailures r ts u).entries.find?
        (fun e => e.1 = cacheKey "login_failures" u) =
      some (cacheKey "login_failures" u, .vInt (c + ts.length),
        some (ts.getLastD prev + 900)) ∧
    sameOracles (recordFailures r ts u) r := by
  intro ts
  induction ts with
  | nil =>
    intro r prev c h1 h2 h3 _h4
    refine ⟨?_, rfl, rfl, rfl, rfl, rfl, rfl⟩
    simpa using h3
  | cons t ts ih =>
    intro r prev c h1 h2 h3 h4
    simp only [slidingChainB, Bool.and_eq_true, decide_eq_true_eq] at h4
    obtain ⟨⟨hle, hlt⟩, hchain⟩ := h4
    have hVal : isCounterVal (lookupEntry r t (cacheKey "login_failures" u)) = true := by
      unfold lookupEntry
      rw [h3]
      simp [liveEntry, hlt, isCounterVal]
    have hlc : liveCount r t u = c := by
      unfold liveCount lookupEntry
      rw [h3]
      simp [liveEntry, hlt]
    have hstep := record_login_failure_eq r t u h1 h2 hVal
    rw [hlc] at hstep
    have hfold : recordFailures r (t :: ts) u =
        recordFailures { r with entries :=
          ((cacheKey "login_failures" u, .vInt (c + 1), some (t + 900)) ::
            removeKey r.entries (cacheKey "login_failures" u)) } ts u := by
      unfold recordFailures
      rw [List.foldl_cons, hstep]
    rw [hfold]
    have h3' : ({ r with entries :=
        ((cacheKey "login_failures" u, .vInt (c + 1), some (t + 900)) ::
          removeKey r.entries (cacheKey "login_failures" u)) } : Redis).entries.find?
        (fun e => e.1 = cacheKey "login_failures" u) =
        some (cacheKey "login_failures" u, .vInt (c + 1), some (t + 900)) := by
      rw [List.find?_cons_of_pos _ (by simp)]
    have hres := ih { r with entries :=
        ((cacheKey "login_failures" u, .vInt (c + 1), some (t + 900)) ::
          removeKey r.entries (cacheKey "login_failures" u)) } t (c + 1)
      (by exact h1) (by exact h2) h3' hchain
    refine ⟨?_, by exact hres.2⟩
    rw [hres.1]
    simp only [List.length_cons, List.getLastD_cons]
    congr 3
    push_cast
    ring_nf

/-- C4: `record_failure` increments the per-username counter and re-applies
the 15-minute TTL on every increment (sliding window); with
`max_attempts = 5`, `is_locked` is true exactly when the current count is
at least 5 — in particular after exactly 5 failures recorded inside the
sliding window — the counter reads as 0 when absent, and after `clear` the
account is no longer locked. -/
theorem claim_C4_lockout_threshold (r : Redis) (now : Int) (u : String) :
    (UserCache.is_account_locked r now u 5 = true ↔
      5 ≤ UserCache.get_login_failures r now u) ∧
    (r.entries.find? (fun e => e.1 = cacheKey "login_failures" u) = none →
      UserCache.get_login_failures r now u = 0) ∧
    (r.failDel (cacheKey "login_failures" u) = false →
      UserCache.get_login_failures (UserCache.clear_login_failures r now u) now u = 0 ∧
      UserCache.is_account_locked (UserCache.clear_login_failures r now u) now u 5 = false) ∧
    (r.failIncr (cacheKey "login_failures" u) = false →
     r.failExpire (cacheKey "login_failures" u) = false →
     r.failGet (cacheKey "login_failures" u) = false →
     isCounterVal (lookupEntry r now (cacheKey "login_failures" u)) = true →
      ∃ r1, UserCache.record_login_failure r now u =
          .ok (r1, UserCache.get_login_failures r now u + 1) ∧
        (∀ t, t < now + 900 →
          UserCache.get_login_failures r1 t u =
            UserCache.get_login_failures r now u + 1) ∧
        (∀ t, now + 900 ≤ t → UserCache.get_login_failures r1 t u = 0)) ∧
    (∀ (t0 : Int) (ts : List Int),
      r.entries.find? (fun e => e.1 = cacheKey "login_failures" u) = none →
      r.failIncr (cacheKey "login_failures" u) = false →
      r.failExpire (cacheKey "login_failures" u) = false →
      r.failGet (cacheKey "login_failures" u) = false →
      slidingChainB t0 ts = true →
      (UserCache.is_account_locked (recordFailures r (t0 :: ts) u)
          (ts.getLastD t0) u 5 = true ↔ 5 ≤ (t0 :: ts).length)) := by
  have hGetEq : ∀ (rr : Redis), rr.failGet (cacheKey "login_failures" u) = false →
      UserCache.get_login_failures rr now u = liveCount rr now u := by
    intro rr h
    unfold UserCache.get_login_failures redisGet liveCount
    simp only [h, Bool.false_eq_true, if_false]
  refine ⟨?_, ?_, ?_, ?_, ?_⟩
  · unfold UserCache.is_account_locked
    simp [ge_iff_le]
  · intro hf
    unfold UserCache.get_login_failures redisGet lookupEntry
    rw [hf]
    by_cases hg : r.failGet (cacheKey "login_failures" u) = true <;> simp [hg]
  · intro hdel
    have h0 : UserCache.get_login_failures
        (UserCache.clear_login_failures r now u) now u = 0 := by
      unfold UserCache.clear_login_failures redisDelete
      simp only [hdel, Bool.false_eq_true, if_false]
      unfold UserCache.get_login_failures redisGet lookupEntry
      by_cases hg : r.failGet (cacheKey "login_failures" u) = true <;>
        simp [hg, find?_removeKey_self]
    refine ⟨h0, ?_⟩
    unfold UserCache.is_account_locked
    rw [h0]
    decide
  · intro hIncr hExp hGet hVal
    have hstep := record_login_failure_eq r now u hIncr hExp hVal
    refine ⟨{ r with entries :=
        ((cacheKey "login_failures" u, .vInt (liveCount r now u + 1), some (now + 900)) ::
          removeKey r.entries (cacheKey "login_failures" u)) }, ?_, ?_, ?_⟩
    · rw [hstep, hGetEq r hGet]
    · intro t ht
      have hread := get_login_failures_after { r with entries :=
          ((cacheKey "login_failures" u, .vInt (liveCount r now u + 1), some (now + 900)) ::
            removeKey r.entries (cacheKey "login_failures" u)) } now u (liveCount r now u + 1)
        (by exact hGet) (by rw [List.find?_cons_of_pos _ (by simp)]) t
      rw [hread, if_pos ht, hGetEq r hGet]
    · intro t ht
      have hread := get_login_failures_after { r with entries :=
          ((cacheKey "login_failures" u, .vInt (liveCount r now u + 1), some (now + 900)) ::
            removeKey r.entries (cacheKey "login_failures" u)) } now u (liveCount r now u + 1)
        (by exact hGet) (by rw [List.find?_cons_of_pos _ (by simp)]) t
      rw [hread, if_neg (by omega)]
  · intro t0 ts hf hIncr hExp hGet hchain
    have hVal : isCounterVal (lookupEntry r t0 (cacheKey "login_failures" u)) = true := by
      unfold lookupEntry
      rw [hf]
      rfl
    have hlc : liveCount r t0 u = 0 := by
      unfold liveCount lookupEntry
      rw [hf]
    have hstep := record_login_failure_eq r t0 u hIncr hExp hVal
    rw [hlc] at hstep
    have hfold : recordFailures r (t0 :: ts) u =
        recordFailures { r with entries :=
          ((cacheKey "login_failures" u, .vInt (0 + 1), some (t0 + 900)) ::
            removeKey r.entries (cacheKey "login_failures" u)) } ts u := by
      unfold recordFailures
      rw [List.foldl_cons, hstep]
    have hres := recordFailures_chain u ts { r with entries :=
        ((cacheKey "login_failures" u, .vInt (0 + 1), some (t0 + 900)) ::
          removeKey r.entries (cacheKey "login_failures" u)) } t0 (0 + 1)
      (by exact hIncr) (by exact hExp)
      (by rw [List.find?_cons_of_pos _ (by simp)]) hchain
    have hread := get_login_failures_after _ (ts.getLastD t0) u (0 + 1 + ts.length)
      (by rw [hres.2.1]; exact hGet) hres.1 (ts.getLastD t0)
    rw [hfold]
    unfold UserCache.is_account_locked
    rw [hread, if_pos (by omega)]
    simp only [ge_iff_le, decide_eq_true_eq, List.length_cons]
    constructor
    · intro h
      push_cast at h ⊢
      omega
    · intro h
      push_cast at h ⊢
      omega

/-- Witness for C4: a concrete store where five failures for `"bob"` inside
the window lock the account, the increment pipeline behaves as stated, and
clearing unlocks. -/
theorem claim_C4_witness :
    (UserCache.is_account_locked
        (recordFailures (Redis.mk [] (fun _ => false) (fun _ => false)
          (fun _ => false) (fun _ => false) (fun _ => false) false)
          [0, 100, 200, 800, 1600] "bob") 1600 "bob" 5 = true) ∧
    (UserCache.is_account_locked
        (UserCache.clear_login_failures
          (Redis.mk [(cacheKey "login_failures" "bob", .vInt 7, some 2000)]
            (fun _ => false) (fun _ => false) (fun _ => false) (fun _ => false)
            (fun _ => false) false) 100 "bob") 100 "bob" 5 = false) := by
  constructor
  · have h := (claim_C4_lockout_threshold
      (Redis.mk [] (fun _ => false) (fun _ => false) (fun _ => false)
        (fun _ => false) (fun _ => false) false) 0 "bob").2.2.2.2
      0 [100, 200, 800, 1600] rfl rfl rfl rfl (by decide)
    exact (by exact h : _ ↔ _).mpr (by decide)
  · exact ((claim_C4_lockout_threshold
      (Redis.mk [(cacheKey "login_failures" "bob", .vInt 7, some 2000)]
        (fun _ => false) (fun _ => false) (fun _ => false) (fun _ => false)
        (fun _ => false) false) 100 "bob").2.2.1 rfl).2

/-! ## Claim C5 -/

/-- C5: the lockout check runs before any credential verification — when
`is_locked` holds the handler returns the distinct locked outcome with an
empty verification trace and the original cache state, whatever the
supplied password — and that outcome differs from the generic
invalid-credentials outcome, which is what an unlocked failing login
produces. -/
theorem claim_C5_lockout_before_verification (d : LoginDeps)
    (login_req : LoginRequest) :
    (UserCache.is_account_locked d.redis d.now login_req.username 5 = true →
      login d login_req =
        (ApiResponse.error_with_command "账户已被锁定，请稍后再试"
          (RouteCommand.alert "账户锁定" "由于多次登录失败，您的账户已被临时锁定，请稍后再试"),
         d.redis, []) ∧
      RouteCommand.alert "账户锁定" "由于多次登录失败，您的账户已被临时锁定，请稍后再试" ≠
        RouteCommand.alert "登录失败" "用户名或密码错误，请重新输入" ∧
      (ApiResponse.error_with_command "账户已被锁定，请稍后再试"
          (RouteCommand.alert "账户锁定" "由于多次登录失败，您的账户已被临时锁定，请稍后再试") :
        ApiResponse LoginResponse) ≠
        ApiResponse.command_only (RouteCommand.alert "登录失败" "用户名或密码错误，请重新输入")) ∧
    (UserCache.is_account_locked d.redis d.now login_req.username 5 = false →
      d.conn.reachable = true →
      authenticateRows d.conn.db d.vfy login_req = none →
      (login d login_req).1 =
        ApiResponse.command_only
          (RouteCommand.alert "登录失败" "用户名或密码错误，请重新输入")) := by
  constructor
  · intro hlock
    refine ⟨?_, ?_, ?_⟩
    · unfold login
      rw [if_pos hlock]
    · intro h
      unfold RouteCommand.alert at h
      injection h with h1 h2
      exact absurd h2 (by decide)
    · intro h
      exact absurd (congrArg ApiResponse.code h) (by decide)
  · intro hlock hreach hrows
    unfold login
    rw [if_neg (by simp [hlock])]
    have hauth : authenticate_user d.conn d.vfy login_req = .ok none := by
      unfold authenticate_user
      rw [if_pos (by simp [hreach]), hrows]
    have hhl : handle_login d.conn d.vfy d.fresh1 d.now login_req =
        .ok (RouteCommand.alert "登录失败" "用户名或密码错误，请重新输入") := by
      unfold handle_login execute_login
      rw [hauth]
      rfl
    rw [hhl]
    rfl

/-- Witness for C5: a store with five failures for `"alice"` short-circuits
the login even though the supplied password matches the stored hash, while
an unlocked failing login yields the invalid-credentials outcome. -/
theorem claim_C5_witness :
    login
      { redis := Redis.mk [(cacheKey "login_failures" "alice", .vInt 5, some 1000)]
          (fun _ => false) (fun _ => false) (fun _ => false) (fun _ => false)
          (fun _ => false) false,
        conn := ⟨⟨[⟨⟨1, "alice", "alice@x", none, none, true, false, false, none,
          none, none, none, 0, 0⟩, "pw"⟩], []⟩, true⟩,
        now := 10, vfy := fun h p => h = p,
        fresh1 := ⟨7, "tok1", true⟩, fresh2 := ⟨8, "tok2", true⟩,
        user_agent := "ua", ip_address := "1.2.3.4" }
      ⟨"alice", "pw"⟩ =
      (ApiResponse.error_with_command "账户已被锁定，请稍后再试"
        (RouteCommand.alert "账户锁定" "由于多次登录失败，您的账户已被临时锁定，请稍后再试"),
       Redis.mk [(cacheKey "login_failures" "alice", .vInt 5, some 1000)]
          (fun _ => false) (fun _ => false) (fun _ => false) (fun _ => false)
          (fun _ => false) false, []) ∧
    (login
      { redis := Redis.mk [] (fun _ => false) (fun _ => false) (fun _ => false)
          (fun _ => false) (fun _ => false) false,
        conn := ⟨⟨[⟨⟨1, "alice", "alice@x", none, none, true, false, false, none,
          none, none, none, 0, 0⟩, "pw"⟩], []⟩, true⟩,
        now := 10, vfy := fun h p => h = p,
        fresh1 := ⟨7, "tok1", true⟩, fresh2 := ⟨8, "tok2", true⟩,
        user_agent := "ua", ip_address := "1.2.3.4" }
      ⟨"alice", "wrong"⟩).1 =
      ApiResponse.command_only
        (RouteCommand.alert "登录失败" "用户名或密码错误，请重新输入") := by
  constructor
  · exact ((claim_C5_lockout_before_verification _ _).1 (by decide)).1
  · exact (claim_C5_lockout_before_verification _ _).2 (by decide) rfl (by decide)

/-! ## Claim C8 -/

/-- C8: in the WeChat login flow, a hard failure of the code exchange fails
the whole login with an alert; any failure of the optional profile
enrichment (wrong signature, decryption error, schema mismatch) does not
abort the flow — the session is still created and the success sequence
carries the user with nickname and avatar unchanged — and a watermark
mismatch after successful decryption does not abort the enrichment itself,
which still updates the profile fields. -/
theorem claim_C8_enrichment_optional (env : WxEnv) (wx_login_req : WxLoginRequest) :
    (∀ msg, env.code2sessionResult = .error msg →
      handle_wx_login env wx_login_req =
        .ok (RouteCommand.alert "登录失败" "微信授权失败，请重试") ∧
      isSequenceShape (RouteCommand.alert "登录失败" "微信授权失败，请重试") = false) ∧
    (∀ resp user0 session e encrypted_data iv signature raw_data,
      env.code2sessionResult = .ok resp →
      find_or_create_wx_user env resp.session_key = .ok user0 →
      wx_login_req.encrypted_data = some encrypted_data →
      wx_login_req.iv = some iv →
      wx_login_req.signature = some signature →
      wx_login_req.raw_data = some raw_data →
      process_encrypted_user_info env user0 encrypted_data iv signature raw_data
        resp.session_key = .error e →
      create_user_session env.conn env.fresh env.now user0.id
        (some "WeChat Mini Program") none = .ok session →
      handle_wx_login env wx_login_req =
        .ok (RouteCommand.Sequence
          [RouteCommand.ProcessData "user"
            (.jwx ⟨UserInfo.ofUser user0.toUser, session.session_token,
              session.expires_at⟩) (some false),
           RouteCommand.NavigateTo (env.homeRoute.getD "/pages/home/home") none
             (some true) (some "/pages/home/home")] (some true)) ∧
      (UserInfo.ofUser user0.toUser).full_name = user0.full_name ∧
      (UserInfo.ofUser user0.toUser).avatar_url = user0.avatar_url) ∧
    (∀ user0 dui encrypted_data iv signature raw_data session_key,
      WxCrypto.verify_signature raw_data session_key signature = .ok true →
      WxCrypto.decrypt_user_info encrypted_data session_key iv = .ok dui →
      dui.watermark.appid ≠ "wx2078fa60851884ca" →
      env.updateProfileOk = true →
      process_encrypted_user_info env user0 encrypted_data iv signature raw_data
        session_key =
        .ok ({ user0 with
          full_name := some dui.nick_name,
          avatar_url := some dui.avatar_url })) := by
  refine ⟨?_, ?_, ?_⟩
  · intro msg hcode
    constructor
    · unfold handle_wx_login
      rw [hcode]
    · rfl
  · intro resp user0 session e encrypted_data iv signature raw_data
      hcode hfind henc hiv hsig hraw hproc hsess
    refine ⟨?_, rfl, rfl⟩
    unfold handle_wx_login
    simp only [hcode, hfind, henc, hiv, hsig, hraw, hproc, hsess]
  · intro user0 dui encrypted_data iv signature raw_data session_key
      hver hdec _hwm hupd
    unfold process_encrypted_user_info
    rw [hver, hdec]
    unfold WxCrypto.verify_watermark
    simp [hupd]

/-- Concrete WeChat exchange response used by the C8 witness. -/
def wxRespW : Code2SessionResponse :=
  ⟨"oW", "AAECAwQFBgcICQoLDA0ODw==", none, none, none⟩

/-- Concrete stored WeChat user used by the C8 witness. -/
def wxUserBaseW : WxUser :=
  ⟨3, "wx_oW", "oW@wx.temp", none, none, true, false, true, some "oW", none,
   some "old", none, 0, 0⟩

/-- The stored user with its session key refreshed by `find_or_create`. -/
def wxUser0W : WxUser :=
  { wxUserBaseW with wx_session_key := some "AAECAwQFBgcICQoLDA0ODw==" }

/-- Concrete environment used by the C8 witness. -/
def wxEnvW : WxEnv :=
  { code2sessionResult := .ok wxRespW,
    findUserByOpenid := .ok (some wxUserBaseW),
    createWxUserResult := .error (),
    updateProfileOk := true,
    conn := ⟨⟨[], []⟩, true⟩,
    fresh := ⟨9, "wtok", true⟩,
    now := 0,
    homeRoute := none }

/-- The session the C8 witness flow creates. -/
def wxSessW : UserSession :=
  ⟨9, 3, "wtok", some "WeChat Mini Program", none, 604800, 0⟩

/-- The decrypted payload of the C8 watermark-mismatch witness. -/
def wxDuiW : DecryptedUserInfo :=
  ⟨"o1", "N", 1, "zh", "c", "p", "CN", "a", none, ⟨"other", 1⟩⟩

set_option maxRecDepth 8192 in
set_option maxHeartbeats 4000000 in
/-- Witness for C8: a failed exchange aborts with an alert; a login whose
profile bundle carries a wrong signature still succeeds with the stored
profile untouched; and a correctly signed and decrypted bundle whose
watermark appid mismatches still updates the profile. -/
theorem claim_C8_witness :
    handle_wx_login ({ wxEnvW with code2sessionResult := .error "boom" })
        ⟨"code", none, none, none, none⟩ =
      .ok (RouteCommand.alert "登录失败" "微信授权失败，请重试") ∧
    handle_wx_login wxEnvW ⟨"code", some "zz", some "EBESExQVFhcYGRobHB0eHw==",
        some "deadbeef", some "x"⟩ =
      .ok (RouteCommand.Sequence
        [RouteCommand.ProcessData "user"
          (.jwx ⟨UserInfo.ofUser wxUser0W.toUser, wxSessW.session_token,
            wxSessW.expires_at⟩) (some false),
         RouteCommand.NavigateTo (wxEnvW.homeRoute.getD "/pages/home/home") none
           (some true) (some "/pages/home/home")] (some true)) ∧
    (UserInfo.ofUser wxUser0W.toUser).full_name = none ∧
    process_encrypted_user_info wxEnvW wxUser0W
        "3vdBpUx0rg4Vn3QZFM3i1Fdg8T3xznsfS08KtUF5JlFTPiwboUYe22i/liO9kiXlbSzYCa1zioTK+mkGTu1JyDsI6MvIQI20Ydfhr/ZKEzJ5+eB9dO4p4SKgPdRnpM64oHiO8nnyRiwSZuXMarLMuDi9baiyUjV07+dZ85XluKNUpu8Gx1wfLMeTIbG50yh3eiI25PKZQ4JJlbX2NLfx/g=="
        "EBESExQVFhcYGRobHB0eHw==" "3a63a2f58be2f2693e5cf398fae807c0b7f9f8bd" "x"
        "AAECAwQFBgcICQoLDA0ODw==" =
      .ok ({ wxUser0W with
        full_name := some "N",
        avatar_url := some "a" }) := by
  refine ⟨?_, ?_, ?_, ?_⟩
  · exact ((claim_C8_enrichment_optional
      ({ wxEnvW with code2sessionResult := .error "boom" })
      ⟨"code", none, none, none, none⟩).1 "boom" rfl).1
  · exact ((claim_C8_enrichment_optional wxEnvW
      ⟨"code", some "zz", some "EBESExQVFhcYGRobHB0eHw==", some "deadbeef", some "x"⟩).2.1
      wxRespW wxUser0W wxSessW "数据签名验证失败" "zz" "EBESExQVFhcYGRobHB0eHw=="
      "deadbeef" "x" rfl (by decide) rfl rfl rfl rfl (by decide) (by decide)).1
  · rfl
  · exact (claim_C8_enrichment_optional wxEnvW
      ⟨"code", none, none, none, none⟩).2.2
      wxUser0W wxDuiW
      "3vdBpUx0rg4Vn3QZFM3i1Fdg8T3xznsfS08KtUF5JlFTPiwboUYe22i/liO9kiXlbSzYCa1zioTK+mkGTu1JyDsI6MvIQI20Ydfhr/ZKEzJ5+eB9dO4p4SKgPdRnpM64oHiO8nnyRiwSZuXMarLMuDi9baiyUjV07+dZ85XluKNUpu8Gx1wfLMeTIbG50yh3eiI25PKZQ4JJlbX2NLfx/g=="
      "EBESExQVFhcYGRobHB0eHw==" "3a63a2f58be2f2693e5cf398fae807c0b7f9f8bd" "x"
      "AAECAwQFBgcICQoLDA0ODw=="
      (by decide) (by decide) (by decide) rfl

/-! ## Claim C2 -/

/-- A lookup that misses stays a miss after any removal. -/
theorem find?_removeKey_none (l : List (String × CacheVal × Option Int))
    (k k2 : String) (h : l.find? (fun e => e.1 = k) = none) :
    (removeKey l k2).find? (fun e => e.1 = k) = none := by
  rw [List.find?_eq_none] at h ⊢
  intro x hx
  exact h x (List.mem_of_mem_filter hx)

/-- `sameOracles` is reflexive. -/
theorem sameOracles_rfl (a : Redis) : sameOracles a a :=
  ⟨rfl, rfl, rfl, rfl, rfl, rfl⟩

/-- `sameOracles` is transitive. -/
theorem sameOracles_trans {a b c : Redis} (h1 : sameOracles a b)
    (h2 : sameOracles b c) : sameOracles a c :=
  ⟨h1.1.trans h2.1, h1.2.1.trans h2.2.1, h1.2.2.1.trans h2.2.2.1,
   h1.2.2.2.1.trans h2.2.2.2.1, h1.2.2.2.2.1.trans h2.2.2.2.2.1,
   h1.2.2.2.2.2.trans h2.2.2.2.2.2⟩

/-- `RedisPool::delete` never touches the failure oracles. -/
theorem redisDelete_oracles (r : Redis) (now : Int) (k : String) :
    sameOracles (redisDelete r now k).1 r := by
  unfold redisDelete
  by_cases h : r.failDel k = true
  · rw [if_pos h]
    exact sameOracles_rfl r
  · rw [if_neg h]
    exact ⟨rfl, rfl, rfl, rfl, rfl, rfl⟩

/-- The entry list after a delete: unchanged on backend failure, the key
removed otherwise. -/
theorem redisDelete_entries (r : Redis) (now : Int) (k : String) :
    (redisDelete r now k).1.entries = r.entries ∨
    (redisDelete r now k).1.entries = removeKey r.entries k := by
  unfold redisDelete
  by_cases h : r.failDel k = true
  · left; rw [if_pos h]
  · right; rw [if_neg h]

/-- A key the delete targets is gone when the backend works. -/
theorem find?_after_delete_self (rx : Redis) (now : Int) (k : String)
    (h : rx.failDel k = false) :
    (redisDelete rx now k).1.entries.find? (fun e => e.1 = k) = none := by
  unfold redisDelete
  rw [if_neg (by simp [h])]
  exact find?_removeKey_self _ _

/-- An absent key stays absent across any delete. -/
theorem find?_after_delete_none (rx : Redis) (now : Int) (k k2 : String)
    (h : rx.entries.find? (fun e => e.1 = k) = none) :
    (redisDelete rx now k2).1.entries.find? (fun e => e.1 = k) = none := by
  rcases redisDelete_entries rx now k2 with he | he
  · rw [he]; exact h
  · rw [he]; exact find?_removeKey_none _ _ _ h

/-- What `invalidate_session` guarantees about the store: oracles are
untouched; the token-keyed entry is gone when its delete backend works;
likewise the combined user+session entry; and the id-keyed entry is gone
when the token-keyed entry was readable and its delete backend works. -/
theorem invalidate_session_spec (r : Redis) (now : Int) (token : String) :
    sameOracles (SessionCache.invalidate_session r now token) r ∧
    (r.failDel (cacheKey "session_token" token) = false →
      (SessionCache.invalidate_session r now token).entries.find?
        (fun e => e.1 = cacheKey "session_token" token) = none) ∧
    (r.failDel (cacheKey "user_session" token) = false →
      (SessionCache.invalidate_session r now token).entries.find?
        (fun e => e.1 = cacheKey "user_session" token) = none) ∧
    (∀ s, SessionCache.get_session_by_token r now token = .ok (some s) →
      r.failDel (cacheKey "session" (toString s.id)) = false →
      (SessionCache.invalidate_session r now token).entries.find?
        (fun e => e.1 = cacheKey "session" (toString s.id)) = none) := by
  rcases hget : SessionCache.get_session_by_token r now token with e | o
  · exact absurd hget (by unfold SessionCache.get_session_by_token; simp)
  rcases o with _ | s
  · have hinv : SessionCache.invalidate_session r now token =
        (redisDelete (redisDelete r now (cacheKey "session_token" token)).1 now
          (cacheKey "user_session" token)).1 := by
      unfold SessionCache.invalidate_session
      rw [hget]
    rw [hinv]
    have ho1 := redisDelete_oracles r now (cacheKey "session_token" token)
    have ho2 := redisDelete_oracles
      (redisDelete r now (cacheKey "session_token" token)).1 now
      (cacheKey "user_session" token)
    refine ⟨sameOracles_trans ho2 ho1, ?_, ?_, ?_⟩
    · intro hdel
      exact find?_after_delete_none _ now _ _
        (find?_after_delete_self r now _ hdel)
    · intro hdel
      exact find?_after_delete_self _ now _ (by rw [ho1.2.2.1]; exact hdel)
    · intro s hs
      simp at hs
  · have hinv : SessionCache.invalidate_session r now token =
        (redisDelete (redisDelete
          (redisDelete r now (cacheKey "session" (toString s.id))).1 now
          (cacheKey "session_token" token)).1 now
          (cacheKey "user_session" token)).1 := by
      unfold SessionCache.invalidate_session
      rw [hget]
    rw [hinv]
    have ho1 := redisDelete_oracles r now (cacheKey "session" (toString s.id))
    have ho2 := redisDelete_oracles
      (redisDelete r now (cacheKey "session" (toString s.id))).1 now
      (cacheKey "session_token" token)
    have ho3 := redisDelete_oracles
      (redisDelete (redisDelete r now (cacheKey "session" (toString s.id))).1 now
        (cacheKey "session_token" token)).1 now
      (cacheKey "user_session" token)
    refine ⟨sameOracles_trans ho3 (sameOracles_trans ho2 ho1), ?_, ?_, ?_⟩
    · intro hdel
      exact find?_after_delete_none _ now _ _
        (find?_after_delete_self _ now _ (by rw [ho1.2.2.1]; exact hdel))
    · intro hdel
      exact find?_after_delete_self _ now _
        (by rw [ho2.2.2.1, ho1.2.2.1]; exact hdel)
    · intro s2 hs2 hdel
      injection hs2 with hs3
      injection hs3 with hs4
      rw [← hs4] at hdel ⊢
      exact find?_after_delete_none _ now _ _
        (find?_after_delete_none _ now _ _
          (find?_after_delete_self r now _ hdel))

/-- C2 (amended): after `invalidate_session(token)` the token-keyed and the
combined user+session entries are unreadable, and the id-keyed entry is
unreadable when the token-keyed entry was readable before the call; each
deletion is attempted independently of the others failing; and a subsequent
identity resolution with that token misses the cache and — provided the
DurableStore no longer yields a matching unexpired active-user row —
returns Invalid. The token-derived `session_access` marker is not deleted
(see the counterexample). -/
theorem claim_C2_invalidate (r : Redis) (now : Int) (token : String) :
    (r.failDel (cacheKey "session_token" token) = false →
      lookupEntry (SessionCache.invalidate_session r now token) now
        (cacheKey "session_token" token) = none) ∧
    (r.failDel (cacheKey "user_session" token) = false →
      lookupEntry (SessionCache.invalidate_session r now token) now
        (cacheKey "user_session" token) = none) ∧
    (∀ s, SessionCache.get_session_by_token r now token = .ok (some s) →
      r.failDel (cacheKey "session" (toString s.id)) = false →
      lookupEntry (SessionCache.invalidate_session r now token) now
        (cacheKey "session" (toString s.id)) = none) ∧
    (∀ (req : RequestCtx) (c : DbConn),
      extract_session_token req = some token →
      req.hasRedisState = true → req.hasDbState = true →
      r.failDel (cacheKey "user_session" token) = false →
      c.reachable = true →
      validateSessionRows c.db now token = none →
      (from_request req (SessionCache.invalidate_session r now token) c now).1 =
        .failure .Unauthorized .Invalid) := by
  obtain ⟨horc, htok, hus, hid⟩ := invalidate_session_spec r now token
  refine ⟨?_, ?_, ?_, ?_⟩
  · intro hdel
    unfold lookupEntry
    rw [htok hdel]
  · intro hdel
    unfold lookupEntry
    rw [hus hdel]
  · intro s hs hdel
    unfold lookupEntry
    rw [hid s hs hdel]
  · intro req c hext hredis hdb hdel hreach hrows
    have hmiss : SessionCache.get_user_session_by_token
        (SessionCache.invalidate_session r now token) now token = .ok none := by
      unfold SessionCache.get_user_session_by_token redisGet
      by_cases hg : (SessionCache.invalidate_session r now token).failGet
          (cacheKey "user_session" token) = true
      · rw [if_pos hg]
      · rw [if_neg hg]
        unfold lookupEntry
        rw [hus hdel]
    have hv : validate_session c now token = .ok none := by
      unfold validate_session
      rw [if_pos (by simp [hreach]), hrows]
    unfold from_request
    rw [hext]
    simp only [hredis, if_true, hmiss, hdb, hv]

/-- The cached user of the C2 counterexample. -/
def cuC2 : CachedUser :=
  ⟨1, "u", "u@x", none, none, true, false, false, none, none, none⟩

/-- The cached session of the C2 counterexample. -/
def csC2 : CachedSession := ⟨10, 1, "tok", none, none, 900, 0⟩

/-- The store of the C2 counterexample: all four token-derived entries are
present and live, and no backend call fails. -/
def rC2 : Redis :=
  ⟨[(cacheKey "user_session" "tok", .vUserSession ⟨cuC2, csC2⟩, some 5000),
    (cacheKey "session_token" "tok", .vSession csC2, some 5000),
    (cacheKey "session" "10", .vSession csC2, some 5000),
    (cacheKey "session_access" "tok", .vInt 50, some 5000)],
   fun _ => false, fun _ => false, fun _ => false, fun _ => false,
   fun _ => false, false⟩

/-- Counterexample to C2 as stated: with every deletion succeeding,
`invalidate_session("tok")` removes the token-keyed, id-keyed and combined
entries, yet the token-derived `session_access:tok` entry is still
readable afterwards — so it is not true that no cache key derived from the
token remains readable. -/
theorem claim_C2_counterexample :
    lookupEntry (SessionCache.invalidate_session rC2 100 "tok") 100
        (cacheKey "session_access" "tok") = some (.vInt 50) ∧
    lookupEntry (SessionCache.invalidate_session rC2 100 "tok") 100
        (cacheKey "session_token" "tok") = none ∧
    lookupEntry (SessionCache.invalidate_session rC2 100 "tok") 100
        (cacheKey "user_session" "tok") = none ∧
    lookupEntry (SessionCache.invalidate_session rC2 100 "tok") 100
        (cacheKey "session" "10") = none := by
  decide

/-- Witness for C2: in the same concrete store, a subsequent resolution of
`"tok"` against an empty database returns Invalid. -/
theorem claim_C2_witness :
    (from_request ⟨some "tok", none, true, true⟩
        (SessionCache.invalidate_session rC2 100 "tok") ⟨⟨[], []⟩, true⟩ 100).1 =
      .failure .Unauthorized .Invalid :=
  (claim_C2_invalidate rC2 100 "tok").2.2.2 ⟨some "tok", none, true, true⟩
    ⟨⟨[], []⟩, true⟩ rfl rfl rfl rfl rfl rfl

/-! ## Claims C1 and C3 -/

/-- A cache state with given entries and no backend failures. -/
def redisOfEntries (l : List (String × CacheVal × Option Int)) : Redis :=
  ⟨l, fun _ => false, fun _ => false, fun _ => false, fun _ => false,
   fun _ => false, false⟩

/-- The projection the guard reads out of the combined cache entry. -/
def cacheHit (r : Redis) (now : Int) (token : String) :
    Option CachedUserSession :=
  match redisGet r now (cacheKey "user_session" token) with
  | some (.vUserSession us) => some us
  | _ => none

/-- The typed cache read is the `Ok` of `cacheHit`; it has no error path. -/
theorem get_user_session_by_token_eq (r : Redis) (now : Int) (token : String) :
    SessionCache.get_user_session_by_token r now token = .ok (cacheHit r now token) := rfl

/-- Soundness of the `validate_session` row set: a returned row carries the
requested token, an unexpired session, and an active user. -/
theorem validateSessionRows_sound (db : Db) (now : Int) (token : String)
    (u : User) (s : UserSession)
    (h : validateSessionRows db now token = some (u, s)) :
    s.session_token = token ∧ now < s.expires_at ∧ u.is_active = true := by
  unfold validateSessionRows at h
  rcases hfm : db.sessions.filterMap (fun s =>
      if s.session_token = token ∧ now < s.expires_at then
        (db.users.find? (fun u => u.user.id = s.user_id ∧ u.user.is_active)).map
          (fun u => (u.user, s))
      else none) with _ | ⟨a, l⟩
  · rw [hfm] at h
    cases h
  · rw [hfm] at h
    injection h with ha
    have hmem : a ∈ db.sessions.filterMap (fun s =>
        if s.session_token = token ∧ now < s.expires_at then
          (db.users.find? (fun u => u.user.id = s.user_id ∧ u.user.is_active)).map
            (fun u => (u.user, s))
        else none) := by
      rw [hfm]
      exact List.mem_cons_self a l
    obtain ⟨s0, _hs0, hf⟩ := List.mem_filterMap.mp hmem
    by_cases hcond : s0.session_token = token ∧ now < s0.expires_at
    · rw [if_pos hcond] at hf
      rcases hfind : db.users.find?
          (fun u => u.user.id = s0.user_id ∧ u.user.is_active) with _ | du
      · rw [hfind] at hf
        cases hf
      · rw [hfind] at hf
        injection hf with hpair
        have hp := List.find?_some hfind
        simp only [decide_eq_true_eq, Bool.and_eq_true] at hp
        rw [ha] at hpair
        have hu : du.user = u := congrArg Prod.fst hpair
        have hs : s0 = s := congrArg Prod.snd hpair
        refine ⟨?_, ?_, ?_⟩
        · rw [← hs]; exact hcond.1
        · rw [← hs]; exact hcond.2
        · rw [← hu]
          simpa using hp.2
    · rw [if_neg hcond] at hf
      cases hf

/-- C1 (amended): the DurableStore path authenticates only unexpired
sessions of active users, and for any token whose join row is valid,
resolving through a populated cache and through a cold cache yield the
same user id and admin flag — but the cache path returns the cached
projection without re-checking expiry or the active flag (see the
counterexample). -/
theorem claim_C1_cache_db_equivalence (db : Db) (now : Int) (token : String)
    (u : User) (s : UserSession)
    (h : validateSessionRows db now token = some (u, s)) :
    (now < s.expires_at ∧ u.is_active = true) ∧
    (from_request ⟨some token, none, true, true⟩ (redisOfEntries [])
        ⟨db, true⟩ now).1 = .success u s ∧
    (∀ rPop, SessionCache.cache_user_session (redisOfEntries []) now u s = .ok rPop →
      (from_request ⟨some token, none, true, true⟩ rPop ⟨db, true⟩ now).1 =
        .success (userFromCached ⟨CachedUser.ofUser u, CachedSession.ofSession s⟩)
          (sessionFromCached ⟨CachedUser.ofUser u, CachedSession.ofSession s⟩)) ∧
    (userFromCached ⟨CachedUser.ofUser u, CachedSession.ofSession s⟩).id = u.id ∧
    (userFromCached ⟨CachedUser.ofUser u, CachedSession.ofSession s⟩).is_admin =
      u.is_admin := by
  obtain ⟨htok, hexp, hact⟩ := validateSessionRows_sound db now token u s h
  refine ⟨⟨hexp, hact⟩, ?_, ?_, rfl, rfl⟩
  · have hv : validate_session ⟨db, true⟩ now token = .ok (some (u, s)) := by
      unfold validate_session
      rw [if_pos (by simp)]
      rw [h]
    have hmiss : cacheHit (redisOfEntries []) now token = none := rfl
    unfold from_request
    simp [extract_session_token, get_user_session_by_token_eq, hmiss, hv]
  · intro rPop hset
    have hrPop : rPop = { redisOfEntries [] with entries :=
        [(cacheKey "user_session" s.session_token,
          .vUserSession ⟨CachedUser.ofUser u, CachedSession.ofSession s⟩,
          some (now + ttlUserSession))] } := by
      unfold SessionCache.cache_user_session redisSet at hset
      rw [if_neg (by simp [redisOfEntries])] at hset
      injection hset with hh
      exact hh.symm
    have hlt : now < now + ttlUserSession := by
      unfold ttlUserSession
      omega
    have hhit : cacheHit rPop now token = some ⟨CachedUser.ofUser u,
        CachedSession.ofSession s⟩ := by
      rw [hrPop, htok]
      simp [cacheHit, redisGet, lookupEntry, liveEntry, redisOfEntries, hlt]
    unfold from_request
    simp [extract_session_token, get_user_session_by_token_eq, hhit]

/-- The (inactive) cached user of the C1 counterexample. -/
def cuC1 : CachedUser :=
  ⟨1, "u", "u@x", none, none, false, false, false, none, none, none⟩

/-- The (expired) cached session of the C1 counterexample. -/
def csC1 : CachedSession := ⟨10, 1, "tok", none, none, 0, 0⟩

/-- A cache holding the expired/inactive projection, still within its own
cache TTL. -/
def rC1 : Redis :=
  redisOfEntries
    [(cacheKey "user_session" "tok", .vUserSession ⟨cuC1, csC1⟩, some 5000)]

/-- Counterexample to C1 as stated: at time 100 the cached session expired
at 0 and its user is inactive, yet resolving the token from the cache
yields an authenticated pair. -/
theorem claim_C1_counterexample :
    (from_request ⟨some "tok", none, true, true⟩ rC1 ⟨⟨[], []⟩, true⟩ 100).1 =
      .success (userFromCached ⟨cuC1, csC1⟩) (sessionFromCached ⟨cuC1, csC1⟩) ∧
    (sessionFromCached ⟨cuC1, csC1⟩).expires_at ≤ 100 ∧
    (userFromCached ⟨cuC1, csC1⟩).is_active = false := by
  decide

/-- Witness for C1: a concrete valid row resolves identically hot and
cold. -/
theorem claim_C1_witness :
    (from_request ⟨some "tokW", none, true, true⟩ (redisOfEntries [])
        ⟨⟨[⟨⟨2, "w", "w@x", none, none, true, true, false, none, none, none,
            none, 0, 0⟩, "h"⟩],
          [⟨11, 2, "tokW", none, none, 1000, 0⟩]⟩, true⟩ 100).1 =
      .success ⟨2, "w", "w@x", none, none, true, true, false, none, none, none,
          none, 0, 0⟩ ⟨11, 2, "tokW", none, none, 1000, 0⟩ :=
  (claim_C1_cache_db_equivalence
    ⟨[⟨⟨2, "w", "w@x", none, none, true, true, false, none, none, none,
        none, 0, 0⟩, "h"⟩],
      [⟨11, 2, "tokW", none, none, 1000, 0⟩]⟩ 100 "tokW"
    ⟨2, "w", "w@x", none, none, true, true, false, none, none, none, none, 0, 0⟩
    ⟨11, 2, "tokW", none, none, 1000, 0⟩ (by decide)).2.1

/-- C3: with no token the guard fails `Missing`; the typed cache read has
no error path (backend failures degrade to a miss, so both a miss and a
cache error reach the DurableStore); on a miss, an unreachable store gives
`DatabaseError` (never `Invalid`), no matching row gives `Invalid`, and a
matching row authenticates and repopulates the cache best-effort. -/
theorem claim_C3_guard_error_paths (req : RequestCtx) (r : Redis) (c : DbConn)
    (now : Int) :
    (extract_session_token req = none →
      from_request req r c now = (.failure .Unauthorized .Missing, r)) ∧
    (∀ token, ∃ o, SessionCache.get_user_session_by_token r now token = .ok o) ∧
    (∀ token, r.failGet (cacheKey "user_session" token) = true →
      cacheHit r now token = none) ∧
    (∀ token, extract_session_token req = some token →
      cacheHit r now token = none →
      req.hasDbState = true →
      (c.reachable = false →
        (from_request req r c now).1 =
          .failure .InternalServerError .DatabaseError) ∧
      (c.reachable = true → validateSessionRows c.db now token = none →
        (from_request req r c now).1 = .failure .Unauthorized .Invalid) ∧
      (∀ u s, c.reachable = true →
        validateSessionRows c.db now token = some (u, s) →
        (from_request req r c now).1 = .success u s ∧
        (req.hasRedisState = true →
          r.failSet (cacheKey "user_session" token) = false →
          r.failGet (cacheKey "user_session" token) = false →
          cacheHit (from_request req r c now).2 now token =
            some ⟨CachedUser.ofUser u, CachedSession.ofSession s⟩))) := by
  refine ⟨?_, ?_, ?_, ?_⟩
  · intro hext
    unfold from_request
    rw [hext]
  · intro token
    exact ⟨cacheHit r now token, get_user_session_by_token_eq r now token⟩
  · intro token hfg
    unfold cacheHit redisGet
    rw [if_pos hfg]
  · intro token hext hmiss hdb
    refine ⟨?_, ?_, ?_⟩
    · intro hreach
      have hv : validate_session c now token = .error () := by
        unfold validate_session
        rw [if_neg (by simp [hreach])]
      unfold from_request
      rw [hext]
      simp [get_user_session_by_token_eq, hmiss, hdb, hv]
    · intro hreach hrows
      have hv : validate_session c now token = .ok none := by
        unfold validate_session
        rw [if_pos (by simp [hreach]), hrows]
      unfold from_request
      rw [hext]
      simp [get_user_session_by_token_eq, hmiss, hdb, hv]
    · intro u s hreach hrows
      have hv : validate_session c now token = .ok (some (u, s)) := by
        unfold validate_session
        rw [if_pos (by simp [hreach]), hrows]
      obtain ⟨htok, -, -⟩ := validateSessionRows_sound c.db now token u s hrows
      constructor
      · unfold from_request
        rw [hext]
        simp [get_user_session_by_token_eq, hmiss, hdb, hv]
      · intro hredis hfs hfg
        have hset : SessionCache.cache_user_session r now u s =
            .ok { r with entries :=
              ((cacheKey "user_session" token,
                .vUserSession ⟨CachedUser.ofUser u, CachedSession.ofSession s⟩,
                some (now + ttlUserSession)) ::
               removeKey r.entries (cacheKey "user_session" token)) } := by
          unfold SessionCache.cache_user_session redisSet
          rw [htok, if_neg (by simp [hfs])]
        have hstate : (from_request req r c now).2 = { r with entries :=
            ((cacheKey "user_session" token,
              .vUserSession ⟨CachedUser.ofUser u, CachedSession.ofSession s⟩,
              some (now + ttlUserSession)) ::
             removeKey r.entries (cacheKey "user_session" token)) } := by
          unfold from_request
          rw [hext]
          simp [get_user_session_by_token_eq, hmiss, hdb, hv, hredis, hset]
        have hlt : now < now + ttlUserSession := by
          unfold ttlUserSession
          omega
        rw [hstate]
        simp [cacheHit, redisGet, lookupEntry, liveEntry, hfg, hlt]

/-- Witness for C3: concrete miss-path runs for all four branch shapes. -/
theorem claim_C3_witness :
    from_request ⟨none, none, true, true⟩ (redisOfEntries []) ⟨⟨[], []⟩, true⟩ 0 =
      (.failure .Unauthorized .Missing, redisOfEntries []) ∧
    (from_request ⟨some "t", none, true, true⟩ (redisOfEntries [])
        ⟨⟨[], []⟩, false⟩ 0).1 = .failure .InternalServerError .DatabaseError ∧
    (from_request ⟨some "t", none, true, true⟩ (redisOfEntries [])
        ⟨⟨[], []⟩, true⟩ 0).1 = .failure .Unauthorized .Invalid := by
  refine ⟨?_, ?_, ?_⟩
  · exact (claim_C3_guard_error_paths ⟨none, none, true, true⟩
      (redisOfEntries []) ⟨⟨[], []⟩, true⟩ 0).1 rfl
  · exact ((claim_C3_guard_error_paths ⟨some "t", none, true, true⟩
      (redisOfEntries []) ⟨⟨[], []⟩, false⟩ 0).2.2.2 "t" rfl rfl rfl).1 rfl
  · exact ((claim_C3_guard_error_paths ⟨some "t", none, true, true⟩
      (redisOfEntries []) ⟨⟨[], []⟩, true⟩ 0).2.2.2 "t" rfl rfl rfl).2.1 rfl rfl

/-! ## Claim C9 -/

/-- The cache entry `cache_user_session` writes for a combined projection. -/
def usEntry (now : Int) (us : CachedUserSession) :
    String × CacheVal × Option Int :=
  (cacheKey "user_session" us.session.session_token, .vUserSession us,
   some (now + ttlUserSession))

/-- A failure-free store holding exactly the given combined projections. -/
def usStore (now : Int) (l : List CachedUserSession) : Redis :=
  redisOfEntries (l.map (usEntry now))

/-- `cacheKey` is injective in the identifier. -/
theorem cacheKey_inj {c a b : String} (h : cacheKey c a = cacheKey c b) :
    a = b := by
  have h2 : ("rocket_taro" ++ ":" ++ c ++ ":").data ++ a.data =
      ("rocket_taro" ++ ":" ++ c ++ ":").data ++ b.data := congrArg String.data h
  have h3 := List.append_cancel_left h2
  cases a with
  | mk da =>
    cases b with
    | mk db => exact congrArg String.mk h3

/-- A `session_token`-category key never collides with a `user_session` one
(the two categories differ at character 12). -/
theorem sessionTokenKey_ne_usKey (a b : String) :
    cacheKey "session_token" a ≠ cacheKey "user_session" b := by
  intro h
  have h2 : (cacheKey "session_token" a).data.get? 12 =
      (cacheKey "user_session" b).data.get? 12 :=
    congrArg (fun s => s.data.get? 12) h
  have e1 : (cacheKey "session_token" a).data.get? 12 = some 's' := by
    show (("rocket_taro" ++ ":" ++ "session_token" ++ ":").data ++
      a.data).get? 12 = some 's'
    rw [List.get?_append (by decide)]
    decide
  have e2 : (cacheKey "user_session" b).data.get? 12 = some 'u' := by
    show (("rocket_taro" ++ ":" ++ "user_session" ++ ":").data ++
      b.data).get? 12 = some 'u'
    rw [List.get?_append (by decide)]
    decide
  rw [e1, e2] at h2
  cases h2

/-- Entries written with the session-cache TTL are live at write time. -/
theorem liveEntry_usEntry (now : Int) (us : CachedUserSession) :
    liveEntry now (usEntry now us) = true := by
  show decide (now < now + ttlUserSession) = true
  simp only [decide_eq_true_eq]
  unfold ttlUserSession
  omega

/-- A list is a `List.isPrefixOf` of itself followed by anything. -/
theorem isPrefixOf_append (l t : List Char) : l.isPrefixOf (l ++ t) = true := by
  induction l with
  | nil => simp [List.isPrefixOf]
  | cons a l ih => simpa [List.isPrefixOf] using ih

/-- Every `user_session`-category key matches the scan pattern. -/
theorem patMatch_usKey (tok : String) :
    patMatch (cacheKey "user_session" "*") (cacheKey "user_session" tok) =
      true := by
  have hdata : (cacheKey "user_session" tok).data =
      (cacheKey "user_session" "*").data.dropLast ++ tok.data := rfl
  unfold patMatch
  rw [decide_eq_true_eq]
  constructor
  · decide
  · rw [hdata]
    exact isPrefixOf_append _ _

/-- The scan over a pure session store lists every stored key in order. -/
theorem keysOp_usStore (now : Int) (l : List CachedUserSession) :
    redisKeysOp (usStore now l) now (cacheKey "user_session" "*") =
      l.map (fun us => cacheKey "user_session" us.session.session_token) := by
  unfold redisKeysOp usStore
  rw [if_neg (by simp [redisOfEntries])]
  show (((l.map (usEntry now)).filter _).map _) = _
  induction l with
  | nil => rfl
  | cons us l ih =>
    simp only [List.map_cons, List.filter_cons]
    have hc : (decide (liveEntry now (usEntry now us) = true ∧
        patMatch (cacheKey "user_session" "*") (usEntry now us).1 = true)) =
        true :=
      decide_eq_true ⟨liveEntry_usEntry now us,
        patMatch_usKey us.session.session_token⟩
    rw [hc]
    simp only [if_true, List.map_cons]
    rw [ih]
    rfl

/-- `find?` skips a prefix on which it fails. -/
theorem findAppendNone {α : Type} (p : α → Bool) (l1 l2 : List α)
    (h : l1.find? p = none) : (l1 ++ l2).find? p = l2.find? p := by
  induction l1 with
  | nil => rfl
  | cons a l ih =>
    by_cases hpa : p a = true
    · rw [List.find?_cons_of_pos _ hpa] at h
      cases h
    · rw [List.find?_cons_of_neg _ hpa] at h
      rw [List.cons_append, List.find?_cons_of_neg _ hpa]
      exact ih h

/-- No entry of a pure session store answers for an absent token. -/
theorem find_usEntry_none (now : Int) (l : List CachedUserSession)
    (tok : String) (h : ∀ v ∈ l, v.session.session_token ≠ tok) :
    (l.map (usEntry now)).find?
      (fun e => e.1 = cacheKey "user_session" tok) = none := by
  rw [List.find?_eq_none]
  intro e he
  obtain ⟨v, hv, rfl⟩ := List.mem_map.mp he
  simp only [usEntry, decide_eq_true_eq]
  exact fun hc => h v hv (cacheKey_inj hc)

/-- The first entry answering for a stored token is its own. -/
theorem find_usEntry_first (now : Int) (l1 l2 : List CachedUserSession)
    (us : CachedUserSession)
    (h1 : ∀ v ∈ l1, v.session.session_token ≠ us.session.session_token) :
    ((l1 ++ us :: l2).map (usEntry now)).find?
      (fun e => e.1 = cacheKey "user_session" us.session.session_token) =
      some (usEntry now us) := by
  rw [List.map_append, findAppendNone _ _ _ (find_usEntry_none now l1 _ h1),
    List.map_cons, List.find?_cons_of_pos _ (by simp [usEntry])]

/-- With a unique occurrence, `find?` returns the member entry. -/
theorem find_usEntry_mem (now : Int) (l : List CachedUserSession)
    (us : CachedUserSession) (hmem : us ∈ l)
    (h : ∀ v ∈ l, v ≠ us →
      v.session.session_token ≠ us.session.session_token) :
    (l.map (usEntry now)).find?
      (fun e => e.1 = cacheKey "user_session" us.session.session_token) =
      some (usEntry now us) := by
  induction l with
  | nil => cases hmem
  | cons v l ih =>
    by_cases hv : v.session.session_token = us.session.session_token
    · have hveq : v = us := by
        by_contra hne
        exact h v (List.mem_cons_self v l) hne hv
      subst hveq
      rw [List.map_cons, List.find?_cons_of_pos _ (by simp [usEntry])]
    · rw [List.map_cons, List.find?_cons_of_neg _ (by
        simp only [usEntry, decide_eq_true_eq]
        exact fun hc => hv (cacheKey_inj hc))]
      apply ih
      · rcases List.mem_cons.mp hmem with heq | hm
        · exact absurd (congrArg (fun w => w.session.session_token) heq).symm hv
        · exact hm
      · exact fun w hw hne => h w (List.mem_cons_of_mem v hw) hne

/-- Removing an absent key is a no-op. -/
theorem removeKey_absent (l : List (String × CacheVal × Option Int))
    (key : String) (h : ∀ e ∈ l, e.1 ≠ key) : removeKey l key = l := by
  unfold removeKey
  rw [List.filter_eq_self]
  intro a ha
  simpa using h a ha

/-- Deleting a uniquely-held session key removes exactly that entry. -/
theorem removeKey_usEntries (now : Int) (l1 l2 : List CachedUserSession)
    (us : CachedUserSession)
    (h1 : ∀ v ∈ l1, v.session.session_token ≠ us.session.session_token)
    (h2 : ∀ v ∈ l2, v.session.session_token ≠ us.session.session_token) :
    removeKey ((l1 ++ us :: l2).map (usEntry now))
      (cacheKey "user_session" us.session.session_token) =
      (l1 ++ l2).map (usEntry now) := by
  unfold removeKey
  rw [List.map_append, List.filter_append, List.map_cons, List.filter_cons]
  have hfalse : (decide ((usEntry now us).1 ≠
      cacheKey "user_session" us.session.session_token)) = false := by
    simp [usEntry]
  rw [hfalse]
  rw [if_neg Bool.false_ne_true]
  have k1 : (l1.map (usEntry now)).filter
      (fun e => e.1 ≠ cacheKey "user_session" us.session.session_token) =
      l1.map (usEntry now) := by
    rw [List.filter_eq_self]
    intro e he
    obtain ⟨v, hv, rfl⟩ := List.mem_map.mp he
    simp only [usEntry, ne_eq, decide_eq_true_eq]
    exact fun hc => h1 v hv (cacheKey_inj hc)
  have k2 : (l2.map (usEntry now)).filter
      (fun e => e.1 ≠ cacheKey "user_session" us.session.session_token) =
      l2.map (usEntry now) := by
    rw [List.filter_eq_self]
    intro e he
    obtain ⟨v, hv, rfl⟩ := List.mem_map.mp he
    simp only [usEntry, ne_eq, decide_eq_true_eq]
    exact fun hc => h2 v hv (cacheKey_inj hc)
  rw [k1, k2]
  exact (List.map_append _ _ _).symm

/-- A pure session store never holds a `session_token`-category key. -/
theorem get_session_by_token_usStore (now now2 : Int)
    (l : List CachedUserSession) (tok : String) :
    SessionCache.get_session_by_token (usStore now l) now2 tok = .ok none := by
  have hfind : (l.map (usEntry now)).find?
      (fun e => e.1 = cacheKey "session_token" tok) = none := by
    rw [List.find?_eq_none]
    intro e he
    obtain ⟨v, hv, rfl⟩ := List.mem_map.mp he
    simp only [usEntry, decide_eq_true_eq]
    exact fun hc => sessionTokenKey_ne_usKey tok v.session.session_token hc.symm
  unfold SessionCache.get_session_by_token redisGet lookupEntry usStore
  simp [redisOfEntries, hfind]

/-- Reading back a stored token from a pure session store. -/
theorem redisGet_usStore (now : Int) (l : List CachedUserSession)
    (us : CachedUserSession)
    (hfind : (l.map (usEntry now)).find?
      (fun e => e.1 = cacheKey "user_session" us.session.session_token) =
      some (usEntry now us)) :
    redisGet (usStore now l) now
      (cacheKey "user_session" us.session.session_token) =
      some (.vUserSession us) := by
  unfold usStore redisGet
  rw [if_neg (by simp [redisOfEntries])]
  unfold lookupEntry
  show (match (l.map (usEntry now)).find?
      (fun e => e.1 = cacheKey "user_session" us.session.session_token) with
    | some e => if liveEntry now e then some e.2.1 else none
    | none => none) = some (.vUserSession us)
  rw [hfind]
  show (if liveEntry now (usEntry now us) = true
      then some (usEntry now us).2.1 else none) = some (.vUserSession us)
  rw [if_pos (liveEntry_usEntry now us)]
  rfl

/-- `invalidate_session` on a pure session store removes exactly the
token-keyed combined entry (the other two category keys are absent). -/
theorem invalidate_session_usStore (now : Int)
    (l1 l2 : List CachedUserSession) (us : CachedUserSession)
    (h1 : ∀ v ∈ l1, v.session.session_token ≠ us.session.session_token)
    (h2 : ∀ v ∈ l2, v.session.session_token ≠ us.session.session_token) :
    SessionCache.invalidate_session (usStore now (l1 ++ us :: l2)) now
      us.session.session_token = usStore now (l1 ++ l2) := by
  have hg := get_session_by_token_usStore now now (l1 ++ us :: l2)
    us.session.session_token
  have habs : removeKey ((l1 ++ us :: l2).map (usEntry now))
      (cacheKey "session_token" us.session.session_token) =
      (l1 ++ us :: l2).map (usEntry now) := by
    apply removeKey_absent
    intro e he
    obtain ⟨v, hv, rfl⟩ := List.mem_map.mp he
    show cacheKey "user_session" v.session.session_token ≠ _
    exact fun hc => sessionTokenKey_ne_usKey _ _ hc.symm
  have hdel := removeKey_usEntries now l1 l2 us h1 h2
  simp only [List.map_append, List.map_cons] at habs hdel
  simp only [SessionCache.invalidate_session, hg]
  unfold redisDelete usStore
  simp [redisOfEntries, habs, hdel]

/-- A uniquely-stored projection reads back from a pure session store. -/
theorem cacheHit_usStore_mem (now : Int) (l : List CachedUserSession)
    (us : CachedUserSession) (hmem : us ∈ l)
    (h : ∀ v ∈ l, v ≠ us →
      v.session.session_token ≠ us.session.session_token) :
    cacheHit (usStore now l) now us.session.session_token = some us := by
  unfold cacheHit
  rw [redisGet_usStore now l us (find_usEntry_mem now l us hmem h)]

/-- An absent token reads back as a miss from a pure session store. -/
theorem cacheHit_usStore_none (now : Int) (l : List CachedUserSession)
    (tok : String) (h : ∀ v ∈ l, v.session.session_token ≠ tok) :
    cacheHit (usStore now l) now tok = none := by
  have hfind := find_usEntry_none now l tok h
  unfold cacheHit redisGet lookupEntry usStore
  simp [redisOfEntries, hfind]

/-- The scan loop over the keys of a suffix: every matching session in the
suffix is invalidated and counted once; everything else is preserved. -/
theorem invalidate_fold_spec (now : Int) (uid : Nat)
    (kept rest : List CachedUserSession) (n : Nat)
    (hnodup : ((kept ++ rest).map (fun v => v.session.session_token)).Nodup)
    (hkept : ∀ v ∈ kept, ¬ v.user.id = uid) :
    (rest.map (fun us => cacheKey "user_session" us.session.session_token)).foldl
      (SessionCache.invalidateStep now uid) (usStore now (kept ++ rest), n) =
      (usStore now (kept ++ rest.filter (fun us => ¬ us.user.id = uid)),
       n + (rest.filter (fun us => us.user.id = uid)).length) := by
  induction rest generalizing kept n with
  | nil => simp
  | cons us rest ih =>
    have hnod0 := hnodup
    rw [List.map_append, List.map_cons, List.nodup_append] at hnod0
    obtain ⟨hnk, hncons, hdisj⟩ := hnod0
    rw [List.nodup_cons] at hncons
    obtain ⟨husr, hnr⟩ := hncons
    have hk_us : ∀ v ∈ kept,
        v.session.session_token ≠ us.session.session_token := by
      intro v hv hc
      exact hdisj (List.mem_map_of_mem _ hv)
        (by rw [hc]; exact List.mem_cons_self _ _)
    have hr_us : ∀ v ∈ rest,
        v.session.session_token ≠ us.session.session_token := by
      intro v hv hc
      exact husr (hc ▸ List.mem_map_of_mem _ hv)
    have hnodup1 : ((kept ++ rest).map
        (fun v => v.session.session_token)).Nodup := by
      rw [List.map_append, List.nodup_append]
      exact ⟨hnk, hnr, fun a ha hb => hdisj ha (List.mem_cons_of_mem _ hb)⟩
    have hget : redisGet (usStore now (kept ++ us :: rest)) now
        (cacheKey "user_session" us.session.session_token) =
        some (.vUserSession us) :=
      redisGet_usStore now (kept ++ us :: rest) us
        (find_usEntry_first now kept rest us hk_us)
    rw [List.map_cons, List.foldl_cons]
    by_cases hmatch : us.user.id = uid
    · have hstep : SessionCache.invalidateStep now uid
          (usStore now (kept ++ us :: rest), n)
          (cacheKey "user_session" us.session.session_token) =
          (usStore now (kept ++ rest), n + 1) := by
        simp only [SessionCache.invalidateStep]
        rw [hget]
        show (if us.user.id = uid then
          (SessionCache.invalidate_session (usStore now (kept ++ us :: rest))
            now us.session.session_token, n + 1)
          else (usStore now (kept ++ us :: rest), n)) = _
        rw [if_pos hmatch, invalidate_session_usStore now kept rest us hk_us hr_us]
      rw [hstep, ih kept (n + 1) hnodup1 hkept]
      simp only [List.filter_cons, hmatch]
      simp only [decide_True, not_true_eq_false, decide_False, if_true, if_false,
        List.length_cons]
      rw [Prod.mk.injEq]
      exact ⟨rfl, by omega⟩
    · have hstep : SessionCache.invalidateStep now uid
          (usStore now (kept ++ us :: rest), n)
          (cacheKey "user_session" us.session.session_token) =
          (usStore now (kept ++ us :: rest), n) := by
        simp only [SessionCache.invalidateStep]
        rw [hget]
        show (if us.user.id = uid then
          (SessionCache.invalidate_session (usStore now (kept ++ us :: rest))
            now us.session.session_token, n + 1)
          else (usStore now (kept ++ us :: rest), n)) = _
        rw [if_neg hmatch]
      rw [hstep]
      have heq : kept ++ us :: rest = (kept ++ [us]) ++ rest := by simp
      have hkept1 : ∀ v ∈ kept ++ [us], ¬ v.user.id = uid := by
        intro v hv
        rcases List.mem_append.mp hv with h | h
        · exact hkept v h
        · rw [List.mem_singleton.mp h]
          exact hmatch
      have hnodup2 : (((kept ++ [us]) ++ rest).map
          (fun v => v.session.session_token)).Nodup := by
        rw [← heq]
        exact hnodup
      rw [heq, ih (kept ++ [us]) n hnodup2 hkept1]
      simp [List.filter_cons, hmatch]

/-- C9: scanning deletes exactly the cached sessions embedding the given
user id and returns their count; sessions of other users that match the
same key pattern stay readable. -/
theorem claim_C9_invalidate_user_sessions (now : Int) (uid : Nat)
    (l : List CachedUserSession)
    (hnodup : (l.map (fun v => v.session.session_token)).Nodup) :
    SessionCache.invalidate_user_sessions (usStore now l) now uid =
      (usStore now (l.filter (fun us => ¬ us.user.id = uid)),
       (l.filter (fun us => us.user.id = uid)).length) ∧
    (∀ us ∈ l, ¬ us.user.id = uid →
      cacheHit (SessionCache.invalidate_user_sessions (usStore now l) now uid).1 now
        us.session.session_token = some us) ∧
    (∀ us ∈ l, us.user.id = uid →
      cacheHit (SessionCache.invalidate_user_sessions (usStore now l) now uid).1 now
        us.session.session_token = none) := by
  have hinj : ∀ v ∈ l, ∀ w ∈ l, v ≠ w →
      v.session.session_token ≠ w.session.session_token :=
    fun v hv w hw hne hc =>
      hne (List.inj_on_of_nodup_map hnodup hv hw hc)
  have hmain : SessionCache.invalidate_user_sessions (usStore now l) now uid =
      (usStore now (l.filter (fun us => ¬ us.user.id = uid)),
       (l.filter (fun us => us.user.id = uid)).length) := by
    simp only [SessionCache.invalidate_user_sessions]
    rw [keysOp_usStore]
    have := invalidate_fold_spec now uid [] l 0 (by simpa using hnodup)
      (by intro v hv; cases hv)
    simpa using this
  refine ⟨hmain, ?_, ?_⟩
  · intro us hus hid
    rw [hmain]
    apply cacheHit_usStore_mem
    · exact List.mem_filter.mpr ⟨hus, by simpa using hid⟩
    · intro v hv hne
      exact hinj v (List.mem_of_mem_filter hv) us hus hne
  · intro us hus hid
    rw [hmain]
    apply cacheHit_usStore_none
    intro v hv hc
    have hvp : ¬ v.user.id = uid := by
      have := (List.mem_filter.mp hv).2
      simpa using this
    have hne : v ≠ us := by
      intro hvu
      rw [hvu] at hvp
      exact hvp hid
    exact hinj v (List.mem_of_mem_filter hv) us hus hne hc

/-- First cached session of user 1 in the C9 witness store. -/
def usW1 : CachedUserSession :=
  ⟨⟨1, "a", "a@x", none, none, true, false, false, none, none, none⟩,
   ⟨1, 1, "t1", none, none, 9999, 0⟩⟩

/-- Second cached session of user 1 in the C9 witness store. -/
def usW2 : CachedUserSession :=
  ⟨⟨1, "a", "a@x", none, none, true, false, false, none, none, none⟩,
   ⟨2, 1, "t2", none, none, 9999, 0⟩⟩

/-- A cached session of user 2, matching the same scan pattern. -/
def usW3 : CachedUserSession :=
  ⟨⟨2, "b", "b@x", none, none, true, false, false, none, none, none⟩,
   ⟨3, 2, "t3", none, none, 9999, 0⟩⟩

/-- Witness for C9: both sessions of user 1 are removed and counted, the
session of user 2 survives and stays readable. -/
theorem claim_C9_witness :
    SessionCache.invalidate_user_sessions (usStore 0 [usW1, usW2, usW3]) 0 1 =
      (usStore 0 [usW3], 2) ∧
    cacheHit (SessionCache.invalidate_user_sessions
      (usStore 0 [usW1, usW2, usW3]) 0 1).1 0 "t3" = some usW3 ∧
    cacheHit (SessionCache.invalidate_user_sessions
      (usStore 0 [usW1, usW2, usW3]) 0 1).1 0 "t1" = none := by
  refine ⟨?_, ?_, ?_⟩
  · exact ((claim_C9_invalidate_user_sessions 0 1 [usW1, usW2, usW3]
      (by decide)).1).trans (by rfl)
  · exact (claim_C9_invalidate_user_sessions 0 1 [usW1, usW2, usW3]
      (by decide)).2.1 usW3 (by decide) (by decide)
  · exact (claim_C9_invalidate_user_sessions 0 1 [usW1, usW2, usW3]
      (by decide)).2.2 usW1 (by decide) (by decide)

end RocketTaro